import Mathlib

/-!
Verification of the gocommerce order-pricing and order-creation core.

Shallow embedding of the Go sources:
  * `money/money.go`            — the `Money` value object,
  * `pricing/pricing.go`        — promotions (`IsValid`, `CanApplyToProduct`),
  * `pricing` service           — `PriceCart`, `applyPromotions`, `calculateDiscount`,
                                  `ValidatePromotion` and the conversion helpers,
  * `orders`                    — the order state machine (`CanTransitionTo`,
                                  `UpdateStatus`) and the orchestrator
                                  (`CreateFromCart`, `rollbackInventory`).

Modelling conventions:
  * Go `int64` arithmetic is modelled with `Int` (no claim in scope depends on
    64-bit wrap-around).
  * Go `float64` promotion values are modelled as exact fractions (`Frac`);
    the Go `int64(...)` conversions, which truncate toward zero, are modelled
    by truncated division (`Int.tdiv`).
  * Go's truncated integer division and remainder (`/`, `%`) are `Int.tdiv` and
    `Int.tmod`.
  * A Go call pattern `v, _ = v.Add(w)` discards the error and assigns the
    zero value `Money{}` on currency mismatch; `Money.addUnchecked` /
    `Money.subtractUnchecked` reproduce that exactly.
  * External collaborators (promotion repository, tax calculator, shipping rate
    calculator, inventory, payment gateway, order repository) are modelled as
    oracle functions supplied to the service, mirroring the Go interfaces.
  * Wall-clock timestamps (`time.Now()`) and presentation-only fields
    (attributes, tax-line breakdown, `CalculatedAt`, address phone/company)
    are omitted: no embedded function reads them.
-/

/-- Error values of the library (`money`, `pricing`, `orders`, `inventory`
packages).  `repoFailure` stands for an arbitrary error produced by a
collaborator and passed through unchanged. -/
inductive Err where
  | currencyMismatch
  | invalidCurrency
  | insufficientStock
  | paymentFailed
  | emptyCart
  | invalidAddress
  | invalidStatus
  | promotionInvalid
  | minPurchaseNotMet
  | repoFailure (code : Nat)
  deriving DecidableEq, Repr

/-- `money.Money`: amount in minor units with an ISO currency code. -/
structure Money where
  amount : Int
  currency : String
  deriving DecidableEq, Repr

/-- `money.Zero`. -/
def Money.zero (currency : String) : Money := ⟨0, currency⟩

/-- `money.New` with the Go caller pattern `m, _ := money.New(a, c)`:
the error for an empty currency code is discarded and the zero value
`Money{}` is used. -/
def Money.newUnchecked (amount : Int) (currency : String) : Money :=
  if currency = "" then ⟨0, ""⟩ else ⟨amount, currency⟩

/-- `money.Money.Add`. -/
def Money.add (m other : Money) : Except Err Money :=
  if m.currency ≠ other.currency then .error .currencyMismatch
  else .ok ⟨m.amount + other.amount, m.currency⟩

/-- `money.Money.Subtract`. -/
def Money.subtract (m other : Money) : Except Err Money :=
  if m.currency ≠ other.currency then .error .currencyMismatch
  else .ok ⟨m.amount - other.amount, m.currency⟩

/-- The Go pattern `v, _ = v.Add(w)`: on mismatch the zero value `Money{}`. -/
def Money.addUnchecked (m other : Money) : Money :=
  match m.add other with
  | .ok v => v
  | .error _ => ⟨0, ""⟩

/-- The Go pattern `v, _ = v.Subtract(w)`. -/
def Money.subtractUnchecked (m other : Money) : Money :=
  match m.subtract other with
  | .ok v => v
  | .error _ => ⟨0, ""⟩

/-- A Go `float64` number modelled as an exact fraction `num / den` with
`den > 0` (small decimal promotion values and tax rates are represented
exactly; float rounding error is outside the model). -/
structure Frac where
  num : Int
  den : Int
  deriving DecidableEq, Repr

/-- Go `int64(q)` on a floating value: truncation toward zero. -/
def Frac.trunc (q : Frac) : Int := q.num.tdiv q.den

/-- A whole number as a `Frac`. -/
def Frac.ofInt (n : Int) : Frac := ⟨n, 1⟩

/-- `money.Money.Multiply`: `int64(float64(m.Amount) * factor)`, modelled as
exact fraction multiplication followed by truncation toward zero. -/
def Money.multiply (m : Money) (factor : Frac) : Money :=
  ⟨(m.amount * factor.num).tdiv factor.den, m.currency⟩

/-- `money.Money.MultiplyInt`. -/
def Money.multiplyInt (m : Money) (factor : Int) : Money :=
  ⟨m.amount * factor, m.currency⟩

/-- `money.Money.LessThan`. -/
def Money.lessThan (m other : Money) : Except Err Bool :=
  if m.currency ≠ other.currency then .error .currencyMismatch
  else .ok (decide (m.amount < other.amount))

/-- `money.Money.GreaterThan`. -/
def Money.greaterThan (m other : Money) : Except Err Bool :=
  if m.currency ≠ other.currency then .error .currencyMismatch
  else .ok (decide (m.amount > other.amount))

/-- `money.Money.Equals`. -/
def Money.equals (m other : Money) : Bool :=
  m.amount == other.amount && m.currency == other.currency

/-- `money.Money.IsZero`. -/
def Money.isZero (m : Money) : Bool := m.amount == 0

/-- `money.Money.Allocate`: split into `n` parts; `base := Amount / n` and
`remainder := Amount % n` with Go's truncated division, part `i` gets
`base + 1` when `i < remainder`. -/
def Money.allocate (m : Money) (n : Int) : List Money :=
  if n ≤ 0 then []
  else
    (List.range n.toNat).map (fun (i : ℕ) =>
      ⟨m.amount.tdiv n + (if (i : Int) < m.amount.tmod n then 1 else 0), m.currency⟩)

-- ### Helper lemmas for allocation

lemma sum_map_range_base_bonus (base r : Int) :
    ∀ k : Nat,
      ((List.range k).map
          (fun (i : ℕ) => base + (if (i : Int) < r then 1 else 0))).sum
        = base * k + min (k : Int) (max r 0) := by
  intro k
  induction k with
  | zero => simp
  | succ k ih =>
    rw [List.range_succ, List.map_append, List.sum_append]
    simp only [List.map_cons, List.map_nil, List.sum_cons, List.sum_nil] at ih ⊢
    rw [ih]
    push_cast
    rw [(by ring : base * ((k : Int) + 1) = base * (k : Int) + base)]
    rcases le_or_lt r 0 with hr | hr
    · rw [if_neg (by omega : ¬ (k : Int) < r), max_eq_right hr,
        min_eq_right (by positivity : (0 : Int) ≤ (k : Int)),
        min_eq_right (by positivity : (0 : Int) ≤ (k : Int) + 1)]
      ring
    · rw [max_eq_left hr.le]
      by_cases hk : (k : Int) < r
      · rw [if_pos hk, min_eq_left (by omega), min_eq_left (by omega)]
        ring
      · rw [if_neg hk, min_eq_right (by omega), min_eq_right (by omega)]
        ring

lemma allocate_mem_amount (m : Money) (n : Int) (x : Money) (hx : x ∈ m.allocate n) :
    x.amount = m.amount.tdiv n ∨ x.amount = m.amount.tdiv n + 1 := by
  unfold Money.allocate at hx
  by_cases hn : n ≤ 0
  · rw [if_pos hn] at hx
    simp at hx
  · rw [if_neg hn] at hx
    simp only [List.mem_map, List.mem_range] at hx
    obtain ⟨i, _, rfl⟩ := hx
    by_cases h : (i : Int) < m.amount.tmod n
    · right; simp [h]
    · left; simp [h]

/-- Claim C6 (amended): for every Money value `m` with a nonnegative amount and
every `n > 0`, `Allocate` returns `n` parts summing exactly to `m.amount`, the
first `m.amount tmod n` parts receive one extra minor unit, and any two parts
differ by at most one minor unit.  (For negative amounts the sum property
fails, see the counterexample.) -/
theorem allocate_spec (m : Money) (n : Int) (hm : 0 ≤ m.amount) (hn : 0 < n) :
    (m.allocate n).length = n.toNat ∧
    ((m.allocate n).map Money.amount).sum = m.amount ∧
    (∀ i : Nat, i < n.toNat →
      (m.allocate n).getD i ⟨0, ""⟩ =
        ⟨m.amount.tdiv n + (if (i : Int) < m.amount.tmod n then 1 else 0),
          m.currency⟩) ∧
    (∀ x ∈ m.allocate n, ∀ y ∈ m.allocate n, (x.amount - y.amount).natAbs ≤ 1) := by
  have hne : ¬ n ≤ 0 := not_le.mpr hn
  have hr0 : 0 ≤ m.amount.tmod n := Int.tmod_nonneg n hm
  have hrn : m.amount.tmod n < n := Int.tmod_lt_of_pos m.amount hn
  have hcast : ((n.toNat : Nat) : Int) = n := Int.toNat_of_nonneg hn.le
  refine ⟨?_, ?_, ?_, ?_⟩
  · unfold Money.allocate
    rw [if_neg hne]
    simp
  · unfold Money.allocate
    rw [if_neg hne, List.map_map]
    have hfun :
        (Money.amount ∘ fun (i : ℕ) =>
          Money.mk (m.amount.tdiv n +
            (if (i : Int) < m.amount.tmod n then 1 else 0)) m.currency)
        = fun (i : ℕ) =>
            m.amount.tdiv n + (if (i : Int) < m.amount.tmod n then 1 else 0) := by
      funext i
      simp
    rw [hfun, sum_map_range_base_bonus, hcast, max_eq_left hr0,
      min_eq_right hrn.le, mul_comm]
    exact Int.tdiv_add_tmod m.amount n
  · intro i hi
    unfold Money.allocate
    rw [if_neg hne]
    rw [List.getD_eq_getElem?_getD, List.getElem?_map, List.getElem?_range hi]
    rfl
  · intro x hx y hy
    rcases allocate_mem_amount m n x hx with h1 | h1 <;>
      rcases allocate_mem_amount m n y hy with h2 | h2 <;>
        rw [h1, h2] <;> omega

/-- Claim C6 counterexample: for `m = −7 USD` and `n = 3`, the three parts sum
to −6, not −7 (Go truncated division leaves the negative remainder
undistributed). -/
theorem allocate_negative_counterexample :
    (((Money.mk (-7) "USD").allocate 3).map Money.amount).sum
      ≠ (Money.mk (-7) "USD").amount := by decide

theorem allocate_spec_witness :
    (((Money.mk 7 "USD").allocate 3).map Money.amount).sum = (7 : Int) :=
  (allocate_spec ⟨7, "USD"⟩ 3 (by decide) (by decide)).2.1

/-- Claim C8: on mismatched currencies `Add`, `Subtract`, `LessThan`,
`GreaterThan` fail with the currency-mismatch error while `Equals` returns
`false`; on equal currencies none of them fails. -/
theorem money_currency_safety (m o : Money) :
    (m.currency ≠ o.currency →
      m.add o = .error .currencyMismatch ∧
      m.subtract o = .error .currencyMismatch ∧
      m.lessThan o = .error .currencyMismatch ∧
      m.greaterThan o = .error .currencyMismatch ∧
      m.equals o = false) ∧
    (m.currency = o.currency →
      m.add o = .ok ⟨m.amount + o.amount, m.currency⟩ ∧
      m.subtract o = .ok ⟨m.amount - o.amount, m.currency⟩ ∧
      m.lessThan o = .ok (decide (m.amount < o.amount)) ∧
      m.greaterThan o = .ok (decide (m.amount > o.amount)) ∧
      m.equals o = (m.amount == o.amount)) := by
  constructor
  · intro h
    refine ⟨?_, ?_, ?_, ?_, ?_⟩ <;>
      simp [Money.add, Money.subtract, Money.lessThan, Money.greaterThan,
        Money.equals, h]
  · intro h
    refine ⟨?_, ?_, ?_, ?_, ?_⟩ <;>
      simp [Money.add, Money.subtract, Money.lessThan, Money.greaterThan,
        Money.equals, h]

theorem money_currency_safety_witness :
    (Money.mk 100 "USD").add (Money.mk 50 "EUR") = .error .currencyMismatch :=
  ((money_currency_safety ⟨100, "USD"⟩ ⟨50, "EUR"⟩).1 (by decide)).1

-- ### Order state machine (`orders` package)

/-- `orders.OrderStatus`. -/
inductive OrderStatus where
  | pending
  | paid
  | processing
  | shipped
  | delivered
  | canceled
  | refunded
  deriving DecidableEq, BEq, Repr

/-- The transition table of `orders.Order.CanTransitionTo`.  Statuses absent
from the Go map (`canceled`, `refunded`) yield no allowed transitions, which
the Go lookup-miss branch treats as `false`. -/
def allowedTransitions : OrderStatus → List OrderStatus
  | .pending => [.paid, .canceled]
  | .paid => [.processing, .canceled, .refunded]
  | .processing => [.shipped, .canceled]
  | .shipped => [.delivered]
  | .delivered => [.refunded]
  | .canceled => []
  | .refunded => []

/-- `orders.Address` (the fields read by `IsComplete` plus `State`, which the
orchestrator copies into the pricing address; `Company`, `AddressLine2` and
`Phone` are never read by the core). -/
structure OrdAddress where
  firstName : String
  lastName : String
  addressLine1 : String
  city : String
  state : String
  postalCode : String
  country : String
  deriving DecidableEq, Repr

/-- `orders.Address.IsComplete`. -/
def OrdAddress.isComplete (a : OrdAddress) : Bool :=
  a.firstName != "" && a.lastName != "" && a.addressLine1 != "" &&
  a.city != "" && a.postalCode != "" && a.country != ""

/-- `orders.OrderItem`. -/
structure OrderItem where
  id : String
  productId : String
  variantId : Option String
  sku : String
  name : String
  unitPrice : Money
  quantity : Int
  discountAmount : Money
  taxAmount : Money
  total : Money
  deriving DecidableEq, Repr

/-- `orders.Order` (wall-clock timestamps omitted: no claim reads them). -/
structure Order where
  id : String
  orderNumber : String
  userId : String
  status : OrderStatus
  items : List OrderItem
  shippingAddress : OrdAddress
  billingAddress : OrdAddress
  paymentMethodId : String
  subtotal : Money
  discountTotal : Money
  taxTotal : Money
  shippingTotal : Money
  total : Money
  notes : String
  deriving DecidableEq, Repr

/-- `orders.Order.CanTransitionTo`. -/
def Order.canTransitionTo (o : Order) (newStatus : OrderStatus) : Bool :=
  (allowedTransitions o.status).contains newStatus

/-- `orders.Order.UpdateStatus`: returns whether the transition happened,
together with the resulting order (the Go method mutates the receiver;
`CompletedAt`/`CanceledAt` stamping is omitted with the timestamps). -/
def Order.updateStatus (o : Order) (newStatus : OrderStatus) : Bool × Order :=
  if !(o.canTransitionTo newStatus) then (false, o)
  else (true, { o with status := newStatus })

/-- `orders.OrderService.UpdateStatus` on an order already fetched from the
repository: rejects invalid transitions with `ErrInvalidStatus`, otherwise
saves through the order-repository oracle and returns the updated order. -/
def orderServiceUpdateStatus (saveOutcome : Order → Option Err)
    (o : Order) (status : OrderStatus) : Except Err Order :=
  match o.updateStatus status with
  | (false, _) => .error .invalidStatus
  | (true, o2) =>
    match saveOutcome o2 with
    | some e => .error e
    | none => .ok o2

/-- The allowed transitions exactly as the specification (and claim C7) lists
them, for comparison with the code's table. -/
def specTransitionEdges : List (OrderStatus × OrderStatus) :=
  [(.pending, .paid), (.pending, .canceled),
   (.paid, .processing), (.paid, .canceled), (.paid, .refunded),
   (.processing, .shipped), (.processing, .canceled),
   (.shipped, .delivered),
   (.delivered, .refunded)]

lemma canTransition_iff (a b : OrderStatus) :
    (allowedTransitions a).contains b = specTransitionEdges.contains (a, b) := by
  cases a <;> cases b <;> decide

/-- Claim C7: a status update succeeds exactly when the (current, target) pair
is one of the nine listed edges; any other request fails — at the service
level with `ErrInvalidStatus` — and leaves the order unchanged. -/
theorem order_status_transition_policy (o : Order) (s : OrderStatus) :
    ((o.updateStatus s).1 = true ↔
      specTransitionEdges.contains (o.status, s) = true) ∧
    ((o.updateStatus s).1 = true → (o.updateStatus s).2 = { o with status := s }) ∧
    ((o.updateStatus s).1 = false → (o.updateStatus s).2 = o) ∧
    (orderServiceUpdateStatus (fun _ => none) o s =
      if specTransitionEdges.contains (o.status, s) = true
      then .ok { o with status := s }
      else .error .invalidStatus) := by
  have hb := canTransition_iff o.status s
  by_cases h : (allowedTransitions o.status).contains s = true
  · have hmem : specTransitionEdges.contains (o.status, s) = true := hb ▸ h
    simp [Order.updateStatus, Order.canTransitionTo, orderServiceUpdateStatus,
      h, hmem]
  · have hmem : ¬ specTransitionEdges.contains (o.status, s) = true :=
      fun hm => h (hb.trans hm)
    simp [Order.updateStatus, Order.canTransitionTo, orderServiceUpdateStatus,
      h, hmem]

/-- A concrete pending order used by witnesses. -/
def sampleOrder : Order :=
  { id := "o1", orderNumber := "N-1", userId := "u1", status := .pending,
    items := [], paymentMethodId := "pm-1", notes := "",
    shippingAddress := ⟨"Ada", "L", "1 Main St", "Springfield", "IL", "62701", "US"⟩,
    billingAddress := ⟨"Ada", "L", "1 Main St", "Springfield", "IL", "62701", "US"⟩,
    subtotal := ⟨0, "USD"⟩, discountTotal := ⟨0, "USD"⟩, taxTotal := ⟨0, "USD"⟩,
    shippingTotal := ⟨0, "USD"⟩, total := ⟨0, "USD"⟩ }

theorem order_status_transition_policy_witness :
    (sampleOrder.updateStatus .shipped).1 = false ∧
    (sampleOrder.updateStatus .shipped).2 = sampleOrder :=
  ⟨by decide, (order_status_transition_policy sampleOrder .shipped).2.2.1 (by decide)⟩

-- ### Pricing package: data model

/-- `pricing.DiscountType`. -/
inductive DiscountType where
  | percentage
  | fixedAmount
  | buyXGetY
  | freeShipping
  deriving DecidableEq, Repr

/-- `pricing.Promotion` (`Value` is a Go float64, modelled as an exact
fraction; validity instants are abstract integer timestamps; `Description`
is omitted and `ApplicableCategoryIDs` is carried but never read). -/
structure Promotion where
  id : String
  code : String
  name : String
  discountType : DiscountType
  value : Frac
  minPurchase : Option Money
  maxDiscount : Option Money
  validFrom : Int
  validTo : Int
  isActive : Bool
  usageLimit : Int
  usageCount : Int
  applicableProductIds : List String
  applicableCategoryIds : List String
  excludedProductIds : List String
  deriving DecidableEq, Repr

/-- `pricing.Promotion.IsValid`. -/
def Promotion.isValid (p : Promotion) (t : Int) : Bool :=
  if !p.isActive then false
  else if t < p.validFrom ∨ t > p.validTo then false
  else if p.usageLimit > 0 ∧ p.usageCount ≥ p.usageLimit then false
  else true

/-- `pricing.Promotion.CanApplyToProduct`: exclusions win; a non-empty
allow-list must contain the product; otherwise the promotion applies to
every product. -/
def Promotion.canApplyToProduct (p : Promotion) (productId : String) : Bool :=
  if p.excludedProductIds.contains productId then false
  else if p.applicableProductIds.isEmpty then true
  else p.applicableProductIds.contains productId

/-- `cart.CartItem` (the fields the pricing and order services read). -/
structure CartItem where
  id : String
  productId : String
  variantId : Option String
  sku : String
  name : String
  price : Money
  quantity : Int
  deriving DecidableEq, Repr

/-- `cart.Cart` (identity fields omitted: unread by this core). -/
structure Cart where
  items : List CartItem
  deriving DecidableEq, Repr

/-- `cart.Cart.IsEmpty`. -/
def Cart.isEmpty (c : Cart) : Bool := c.items.isEmpty

/-- `pricing.LineItem`. -/
structure LineItem where
  id : String
  productId : String
  variantId : Option String
  sku : String
  name : String
  unitPrice : Money
  quantity : Int
  deriving DecidableEq, Repr

/-- `pricing.LineItemPrice`. -/
structure LineItemPrice where
  lineItemId : String
  subtotal : Money
  discountAmount : Money
  taxAmount : Money
  total : Money
  deriving DecidableEq, Repr

/-- `pricing.AppliedDiscount`. -/
structure AppliedDiscount where
  promotionId : String
  code : String
  name : String
  discountType : DiscountType
  amount : Money
  appliedToItems : List String
  deriving DecidableEq, Repr

/-- `pricing.Address` — also standing for `tax.Address` and
`shipping.Address`, whose conversion helpers copy exactly these four
fields. -/
structure Address where
  country : String
  state : String
  city : String
  postalCode : String
  deriving DecidableEq, Repr

/-- `tax.TaxableItem` (the fields `convertToTaxableItems` fills). -/
structure TaxableItem where
  id : String
  amount : Money
  quantity : Int
  deriving DecidableEq, Repr

/-- `tax.CalculationRequest`. -/
structure TaxRequest where
  lineItems : List TaxableItem
  shippingCost : Money
  address : Address
  taxInclusive : Bool
  deriving DecidableEq, Repr

/-- `tax.LineItemTax` (the per-rate breakdown is never read). -/
structure LineItemTax where
  lineItemId : String
  taxAmount : Money
  deriving DecidableEq, Repr

/-- `tax.CalculationResult` (`TaxRates` feeds only the presentation-only
`TaxLines`; `ShippingTax` is never read). -/
structure TaxResult where
  totalTax : Money
  lineItemTaxes : List LineItemTax
  deriving DecidableEq, Repr

/-- `shipping.ShippableItem` (only ever produced by the stub converter). -/
structure ShippableItem where
  sku : String
  quantity : Int
  deriving DecidableEq, Repr

/-- `shipping.RateRequest` (`SourceAddress` omitted: never set or read). -/
structure ShipRequest where
  items : List ShippableItem
  destinationAddress : Address
  shippingMethodId : String
  deriving DecidableEq, Repr

/-- `shipping.ShippingRate` (the engine reads only `Cost`). -/
structure ShippingRate where
  cost : Money
  deriving DecidableEq, Repr

/-- `pricing.PricingResult` (`TaxLines` and `CalculatedAt` omitted:
presentation-only). -/
structure PricingResult where
  subtotal : Money
  discountTotal : Money
  taxTotal : Money
  shippingTotal : Money
  total : Money
  lineItemPrices : List LineItemPrice
  appliedDiscounts : List AppliedDiscount
  currency : String
  deriving DecidableEq, Repr

/-- `pricing.PriceCartRequest`. -/
structure PriceCartRequest where
  cart : Option Cart
  promotionCodes : List String
  shippingMethodId : Option String
  shippingAddress : Option Address
  taxInclusive : Bool

/-- The `pricing.PricingService` collaborators: the promotion repository
(`FindByCode`), an optional tax calculator (`Calculate`; a `none` answer is a
calculation error) and an optional shipping rate calculator (`GetRate`;
`.error` is a lookup failure, `.ok none` a nil rate with nil error). -/
structure PricingDeps where
  promotionRepo : String → Except Err Promotion
  taxCalculator : Option (TaxRequest → Option TaxResult)
  shippingCalc : Option (ShipRequest → Except Unit (Option ShippingRate))

-- ### Pricing package: the engine

/-- The cart-item → line-item conversion loop at the top of `PriceCart`. -/
def toLineItem (item : CartItem) : LineItem :=
  ⟨item.id, item.productId, item.variantId, item.sku, item.name,
    item.price, item.quantity⟩

/-- `convertToShippingItems` — the source is a stub returning the empty
list. -/
def convertToShippingItems (_items : List LineItem) : List ShippableItem := []

/-- `convertToShippingAddress` (a nil address becomes the zero value). -/
def convertToShippingAddress (addr : Option Address) : Address :=
  match addr with
  | none => ⟨"", "", "", ""⟩
  | some a => a

/-- `convertToTaxAddress` (a nil address becomes the zero value). -/
def convertToTaxAddress (addr : Option Address) : Address :=
  match addr with
  | none => ⟨"", "", "", ""⟩
  | some a => a

/-- `convertToTaxableItems`: item `i` is reported with the (undiscounted)
`prices[i].Subtotal`.  The Go loop indexes `prices` by position in `items`;
the two lists always have equal length at the call site. -/
def convertToTaxableItems : List LineItem → List LineItemPrice → List TaxableItem
  | [], _ => []
  | _ :: _, [] => []
  | item :: items, price :: prices =>
    ⟨item.id, price.subtotal, item.quantity⟩ :: convertToTaxableItems items prices

/-- The `MaxDiscount` cap of `calculateDiscount`: the discount is replaced by
`MaxDiscount` only when `GreaterThan` succeeds with `true` (its error is
discarded, so a currency mismatch leaves the discount uncapped). -/
def capDiscount (maxDiscount : Option Money) (d : Money) : Money :=
  match maxDiscount with
  | none => d
  | some maxD =>
    match d.greaterThan maxD with
    | .ok true => maxD
    | _ => d

/-- The per-line discount computed in the `calculateDiscount` loop body:
percentage promotions multiply the line's (undiscounted) subtotal,
fixed-amount promotions convert `Value` to minor units in the cart currency,
any other discount type leaves the Go zero value `Money{}`; then the
`MaxDiscount` cap. -/
def itemDiscountFor (p : Promotion) (currency : String)
    (price : LineItemPrice) : Money :=
  capDiscount p.maxDiscount
    (match p.discountType with
     | .percentage => price.subtotal.multiply p.value
     | .fixedAmount => Money.newUnchecked p.value.trunc currency
     | _ => ⟨0, ""⟩)

/-- The `calculateDiscount` loop over the parallel `lineItems` /
`lineItemPrices` lists, threading the running `totalDiscount` and
`appliedToItems` and updating each qualifying line's `DiscountAmount`
(in Go an in-place mutation). -/
def discountLoop (p : Promotion) (currency : String) :
    List LineItem → List LineItemPrice → Money → List String →
    Money × List String × List LineItemPrice
  | [], prices, acc, applied => (acc, applied, prices)
  | _ :: _, [], acc, applied => (acc, applied, [])
  | item :: items, price :: prices, acc, applied =>
    if p.canApplyToProduct item.productId then
      let d := itemDiscountFor p currency price
      let price2 :=
        { price with discountAmount := price.discountAmount.addUnchecked d }
      let rest :=
        discountLoop p currency items prices (acc.addUnchecked d)
          (applied ++ [item.id])
      (rest.1, rest.2.1, price2 :: rest.2.2)
    else
      let rest := discountLoop p currency items prices acc applied
      (rest.1, rest.2.1, price :: rest.2.2)

/-- `calculateDiscount`: nil for an empty item list or a zero total discount
(line mutations still performed); otherwise the `AppliedDiscount` record.
The updated line prices are returned alongside, standing for the in-place
mutation in Go. -/
def calculateDiscount (p : Promotion) (lineItems : List LineItem)
    (prices : List LineItemPrice) :
    Option AppliedDiscount × List LineItemPrice :=
  match lineItems with
  | [] => (none, prices)
  | first :: _ =>
    let currency := first.unitPrice.currency
    let r := discountLoop p currency lineItems prices (Money.zero currency) []
    if r.1.isZero then (none, r.2.2)
    else (some ⟨p.id, p.code, p.name, p.discountType, r.1, r.2.1⟩, r.2.2)

/-- `applyPromotions` as a fold over the supplied codes: a repository error
or an invalid promotion is skipped silently, a nil (zero) discount is not
appended.  The Go function's error result is always nil, so no error channel
exists. -/
def applyPromotions (repo : String → Except Err Promotion) (now : Int)
    (lineItems : List LineItem) :
    List String → List LineItemPrice → List AppliedDiscount →
    List AppliedDiscount × List LineItemPrice
  | [], prices, acc => (acc, prices)
  | code :: codes, prices, acc =>
    match repo code with
    | .error _ => applyPromotions repo now lineItems codes prices acc
    | .ok p =>
      if !(p.isValid now) then applyPromotions repo now lineItems codes prices acc
      else
        match calculateDiscount p lineItems prices with
        | (none, prices2) => applyPromotions repo now lineItems codes prices2 acc
        | (some d, prices2) =>
          applyPromotions repo now lineItems codes prices2 (acc ++ [d])

/-- Per-line subtotal `UnitPrice × Quantity`. -/
def lineSubtotal (item : LineItem) : Money :=
  item.unitPrice.multiplyInt item.quantity

/-- The initial `LineItemPrice` built in the subtotal loop of `PriceCart`. -/
def initialLinePrice (currency : String) (item : LineItem) : LineItemPrice :=
  ⟨item.id, lineSubtotal item, Money.zero currency, Money.zero currency,
    lineSubtotal item⟩

/-- The tax write-back loop of `PriceCart`:
`lineItemPrices[i].TaxAmount = LineItemTaxes[i].TaxAmount` for every index
within both lists. -/
def updateLineTaxes : List LineItemPrice → List LineItemTax → List LineItemPrice
  | prices, [] => prices
  | [], _ => []
  | price :: prices, t :: taxes =>
    { price with taxAmount := t.taxAmount } :: updateLineTaxes prices taxes

/-- The final per-line total loop:
`Total = Subtotal − DiscountAmount + TaxAmount`. -/
def finalizeLinePrice (price : LineItemPrice) : LineItemPrice :=
  { price with
    total := (price.subtotal.subtractUnchecked
      price.discountAmount).addUnchecked price.taxAmount }

/-- The shipping step of `PriceCart`: with a shipping method id and a
configured rate calculator, fetch a quote; on a lookup error or a nil rate
(and with either collaborator input absent) the shipping total stays zero. -/
def getShippingTotal (sc : Option (ShipRequest → Except Unit (Option ShippingRate)))
    (mId : Option String) (items : List ShippableItem) (dest : Address)
    (currency : String) : Money :=
  match mId, sc with
  | some methodId, some getRate =>
    match getRate ⟨items, dest, methodId⟩ with
    | .ok (some rate) => rate.cost
    | _ => Money.zero currency
  | _, _ => Money.zero currency

/-- The tax step of `PriceCart`: with an address and a configured calculator,
request tax over the taxable items (undiscounted line subtotals) plus the
shipping cost; the result's per-line taxes are written back.  On a
calculation error (and with either input absent) the tax total stays zero
and the line prices are untouched. -/
def getTax (tc : Option (TaxRequest → Option TaxResult)) (addr : Option Address)
    (lineItems : List LineItem) (prices1 : List LineItemPrice)
    (shippingTotal : Money) (ti : Bool) (currency : String) :
    Money × List LineItemPrice :=
  match addr, tc with
  | some _, some calculate =>
    match calculate ⟨convertToTaxableItems lineItems prices1,
        shippingTotal, convertToTaxAddress addr, ti⟩ with
    | some taxResult =>
      (taxResult.totalTax, updateLineTaxes prices1 taxResult.lineItemTaxes)
    | none => (Money.zero currency, prices1)
  | _, _ => (Money.zero currency, prices1)

/-- The body of `PricingService.PriceCart` for a non-empty cart whose head
item is `first`: subtotal → promotions → shipping → tax → totals, in source
order.  The Go subtotal loop fills `lineItemPrices` and accumulates
`subtotal` in one pass over the line items; the same values are produced
here by a map and a fold over the same list.  Collaborator failures
(shipping rate error or nil rate, tax calculation error) leave the
corresponding total at zero.  `now` stands for `time.Now()` in
promotion-validity checks. -/
def priceCartCore (deps : PricingDeps) (now : Int) (req : PriceCartRequest)
    (c : Cart) (first : CartItem) : PricingResult :=
  let lineItems := c.items.map toLineItem
  let currency := first.price.currency
  let lineItemPrices := lineItems.map (initialLinePrice currency)
  let subtotal :=
    (lineItems.map lineSubtotal).foldl Money.addUnchecked (Money.zero currency)
  let ap := applyPromotions deps.promotionRepo now lineItems
    req.promotionCodes lineItemPrices []
  let appliedDiscounts := ap.1
  let prices1 := ap.2
  let discountTotal :=
    (appliedDiscounts.map AppliedDiscount.amount).foldl Money.addUnchecked
      (Money.zero currency)
  let shippingTotal :=
    getShippingTotal deps.shippingCalc req.shippingMethodId
      (convertToShippingItems lineItems)
      (convertToShippingAddress req.shippingAddress) currency
  let tax :=
    getTax deps.taxCalculator req.shippingAddress lineItems prices1
      shippingTotal req.taxInclusive currency
  let taxTotal := tax.1
  let prices2 := tax.2
  let total :=
    ((subtotal.subtractUnchecked discountTotal).addUnchecked
      taxTotal).addUnchecked shippingTotal
  ⟨subtotal, discountTotal, taxTotal, shippingTotal, total,
    prices2.map finalizeLinePrice, appliedDiscounts, currency⟩

/-- `PricingService.PriceCart`.  A nil or empty cart returns Go's
`(nil, nil)`, i.e. `.ok none`; otherwise the engine body `priceCartCore`
runs.  The Go error return is always nil: `applyPromotions` never fails and
collaborator failures degrade to zero. -/
def priceCart (deps : PricingDeps) (now : Int) (req : PriceCartRequest) :
    Except Err (Option PricingResult) :=
  match req.cart with
  | none => .ok none
  | some c =>
    match c.items with
    | [] => .ok none
    | first :: _ => .ok (some (priceCartCore deps now req c first))

/-- `PricingService.ValidatePromotion`: repository errors pass through; an
invalid promotion yields `ErrPromotionInvalid`; a configured `MinPurchase`
must be strictly exceeded — the boolean of `GreaterThan` is consulted with
its error discarded, so a currency mismatch also rejects — otherwise
`ErrMinPurchaseNotMet`. -/
def validatePromotion (repo : String → Except Err Promotion) (now : Int)
    (code : String) (cartTotal : Money) : Except Err Promotion :=
  match repo code with
  | .error e => .error e
  | .ok p =>
    if !(p.isValid now) then .error .promotionInvalid
    else
      match p.minPurchase with
      | none => .ok p
      | some minP =>
        match cartTotal.greaterThan minP with
        | .ok true => .ok p
        | _ => .error .minPurchaseNotMet

-- ### Concrete pricing scenarios

/-- The result (if any) of a pricing call, for stating concrete facts. -/
def pricingOutput (r : Except Err (Option PricingResult)) :
    Option PricingResult :=
  match r with
  | .ok v => v
  | .error _ => none

/-- A valid, unrestricted 10 percent promotion with code `A`. -/
def promoTen : Promotion :=
  { id := "pA", code := "A", name := "TenPercent",
    discountType := .percentage, value := ⟨1, 10⟩,
    minPurchase := none, maxDiscount := none,
    validFrom := 0, validTo := 100, isActive := true,
    usageLimit := 0, usageCount := 0,
    applicableProductIds := [], applicableCategoryIds := [],
    excludedProductIds := [] }

/-- A valid, unrestricted 500-minor-unit fixed promotion with code `B`. -/
def promoFixed : Promotion :=
  { id := "pB", code := "B", name := "FiveOff",
    discountType := .fixedAmount, value := ⟨500, 1⟩,
    minPurchase := none, maxDiscount := none,
    validFrom := 0, validTo := 100, isActive := true,
    usageLimit := 0, usageCount := 0,
    applicableProductIds := [], applicableCategoryIds := [],
    excludedProductIds := [] }

/-- A promotion repository holding `promoTen` and `promoFixed`. -/
def repoDemo : String → Except Err Promotion := fun code =>
  if code = "A" then .ok promoTen
  else if code = "B" then .ok promoFixed
  else .error (.repoFailure 0)

/-- A concrete destination address. -/
def demoAddress : Address := ⟨"US", "CA", "LA", "90001"⟩

/-- A cart with one line of 10000 minor units (quantity 1). -/
def cartOneItem : Cart :=
  ⟨[⟨"i1", "prod1", none, "SKU1", "widget", ⟨10000, "USD"⟩, 1⟩]⟩

/-- A tax calculator that answers with, as its `TotalTax`, exactly the
taxable amount it was handed: the sum of the line amounts plus the shipping
cost.  Pricing it makes the taxable base observable in the result. -/
def echoTaxCalculator : TaxRequest → Option TaxResult := fun q =>
  some ⟨⟨((q.lineItems.map (fun t => t.amount.amount)).sum)
          + q.shippingCost.amount,
        q.shippingCost.currency⟩, []⟩

/-- A tax calculator answering a 100-minor-unit total tax with an empty
per-line tax list — a legal answer under the `tax.Calculator` contract,
which promises no relation between `TotalTax` and `LineItemTaxes`. -/
def incoherentTaxCalculator : TaxRequest → Option TaxResult := fun _ =>
  some ⟨⟨100, "USD"⟩, []⟩

/-- Claim C2 counterexample: pricing a single-line 10000-minor-unit cart
with the valid 10 percent promotion `A` and the echoing tax calculator.  The
taxable amount handed to the calculator (echoed into `TaxTotal`) is 10000 —
the undiscounted subtotal — and not 9000 = subtotal − discount + shipping
as the claim requires. -/
theorem taxable_amount_counterexample :
    (pricingOutput (priceCart ⟨repoDemo, some echoTaxCalculator, none⟩ 0
        ⟨some cartOneItem, ["A"], none, some demoAddress, false⟩)).map
      (fun r => (r.taxTotal.amount,
        r.subtotal.amount - r.discountTotal.amount + r.shippingTotal.amount))
      = some (10000, 9000) ∧ (10000 : Int) ≠ 9000 := by decide

/-- Claim C4 counterexample: with a tax calculator reporting a 100-unit
total tax and no per-line taxes, the priced single-line cart has per-line
totals summing to 10000 while subtotal − discountTotal + taxTotal is
10100. -/
theorem per_line_total_counterexample :
    (pricingOutput (priceCart ⟨repoDemo, some incoherentTaxCalculator, none⟩ 0
        ⟨some cartOneItem, [], none, some demoAddress, false⟩)).map
      (fun r => ((r.lineItemPrices.map (fun q => q.total.amount)).sum,
        r.subtotal.amount - r.discountTotal.amount + r.taxTotal.amount))
      = some (10000, 10100) ∧ (10000 : Int) ≠ 10100 := by decide

-- ### Toolkit: elementary Money facts

lemma addUnchecked_eq_of_currency (m o : Money) (h : m.currency = o.currency) :
    m.addUnchecked o = ⟨m.amount + o.amount, m.currency⟩ := by
  simp [Money.addUnchecked, Money.add, h]

lemma subtractUnchecked_eq_of_currency (m o : Money)
    (h : m.currency = o.currency) :
    m.subtractUnchecked o = ⟨m.amount - o.amount, m.currency⟩ := by
  simp [Money.subtractUnchecked, Money.subtract, h]

lemma foldl_addUnchecked_spec (cur : String) :
    ∀ (l : List Money) (init : Money), init.currency = cur →
      (∀ m ∈ l, m.currency = cur) →
      l.foldl Money.addUnchecked init
        = ⟨init.amount + (l.map Money.amount).sum, cur⟩
  | [], init, hi, _ => by
    cases init with
    | mk a c =>
      simp only [List.foldl_nil, List.map_nil, List.sum_nil, add_zero]
      simp at hi
      rw [hi]
  | m :: l, init, hi, hl => by
    have hm : m.currency = cur := hl m (List.mem_cons_self m l)
    have hstep : init.addUnchecked m = ⟨init.amount + m.amount, cur⟩ := by
      rw [addUnchecked_eq_of_currency init m (by rw [hi, hm]), hi]
    rw [List.foldl_cons, hstep,
      foldl_addUnchecked_spec cur l ⟨init.amount + m.amount, cur⟩ rfl
        (fun x hx => hl x (List.mem_cons_of_mem m hx))]
    simp [Money.mk.injEq]
    ring

-- ### Toolkit: the discount loop

lemma discountLoop_shape (p : Promotion) (cur : String) :
    ∀ (items : List LineItem) (prices : List LineItemPrice) (acc : Money)
      (ap : List String),
      ((discountLoop p cur items prices acc ap).2.2).map (fun q => q.subtotal)
          = prices.map (fun q => q.subtotal) ∧
      ((discountLoop p cur items prices acc ap).2.2).map (fun q => q.taxAmount)
          = prices.map (fun q => q.taxAmount) ∧
      ((discountLoop p cur items prices acc ap).2.2).length = prices.length
  | [], prices, acc, ap => by simp [discountLoop]
  | _ :: items, [], acc, ap => by simp [discountLoop]
  | item :: items, price :: prices, acc, ap => by
    by_cases h : p.canApplyToProduct item.productId = true
    · have ih := discountLoop_shape p cur items prices
        (acc.addUnchecked (itemDiscountFor p cur price)) (ap ++ [item.id])
      simp [discountLoop, h, ih.1, ih.2.1, ih.2.2]
    · have ih := discountLoop_shape p cur items prices acc ap
      simp [discountLoop, h, ih.1, ih.2.1, ih.2.2]

lemma itemDiscountFor_congr (p : Promotion) (cur : String)
    (q q2 : LineItemPrice) (h : q.subtotal = q2.subtotal) :
    itemDiscountFor p cur q = itemDiscountFor p cur q2 := by
  unfold itemDiscountFor
  rw [h]

lemma discountLoop_fst_eq (p : Promotion) (cur : String) :
    ∀ (items : List LineItem) (prices prices2 : List LineItemPrice)
      (acc : Money) (ap : List String),
      prices.map (fun q => q.subtotal) = prices2.map (fun q => q.subtotal) →
      (discountLoop p cur items prices acc ap).1
          = (discountLoop p cur items prices2 acc ap).1 ∧
      (discountLoop p cur items prices acc ap).2.1
          = (discountLoop p cur items prices2 acc ap).2.1
  | [], prices, prices2, acc, ap, h => by simp [discountLoop]
  | item :: items, [], [], acc, ap, h => by simp [discountLoop]
  | item :: items, [], q2 :: qs2, acc, ap, h => by simp at h
  | item :: items, q :: qs, [], acc, ap, h => by simp at h
  | item :: items, q :: qs, q2 :: qs2, acc, ap, h => by
    simp only [List.map_cons, List.cons.injEq] at h
    obtain ⟨hq, hqs⟩ := h
    by_cases hc : p.canApplyToProduct item.productId = true
    · have hd : itemDiscountFor p cur q = itemDiscountFor p cur q2 :=
        itemDiscountFor_congr p cur q q2 hq
      have ih := discountLoop_fst_eq p cur items qs qs2
        (acc.addUnchecked (itemDiscountFor p cur q2)) (ap ++ [item.id]) hqs
      simp only [discountLoop, hc, if_true, hd]
      exact ⟨ih.1, ih.2⟩
    · have ih := discountLoop_fst_eq p cur items qs qs2 acc ap hqs
      simp only [discountLoop, hc, if_false, Bool.false_eq_true]
      exact ⟨ih.1, ih.2⟩

lemma calculateDiscount_fst_eq (p : Promotion) (items : List LineItem)
    (prices prices2 : List LineItemPrice)
    (h : prices.map (fun q => q.subtotal) = prices2.map (fun q => q.subtotal)) :
    (calculateDiscount p items prices).1 = (calculateDiscount p items prices2).1 := by
  cases items with
  | nil => simp [calculateDiscount]
  | cons first rest =>
    have hd := discountLoop_fst_eq p first.unitPrice.currency (first :: rest)
      prices prices2 (Money.zero first.unitPrice.currency) [] h
    simp only [calculateDiscount]
    rw [hd.1, hd.2]
    split_ifs <;> simp

lemma calculateDiscount_shape (p : Promotion) (items : List LineItem)
    (prices : List LineItemPrice) :
    ((calculateDiscount p items prices).2).map (fun q => q.subtotal)
        = prices.map (fun q => q.subtotal) ∧
    ((calculateDiscount p items prices).2).map (fun q => q.taxAmount)
        = prices.map (fun q => q.taxAmount) ∧
    ((calculateDiscount p items prices).2).length = prices.length := by
  cases items with
  | nil => simp [calculateDiscount]
  | cons first rest =>
    have hs := discountLoop_shape p first.unitPrice.currency (first :: rest)
      prices (Money.zero first.unitPrice.currency) []
    simp only [calculateDiscount]
    split_ifs <;> exact ⟨hs.1, hs.2.1, hs.2.2⟩

-- ### Toolkit: promotion application decomposes into independent discounts

/-- Each supplied code's discount evaluated independently against a fixed
base list of line prices (in particular against the original undiscounted
subtotals when `basePrices` is the initial price list): lookup failures and
invalid promotions contribute nothing, and a zero (nil) discount is
dropped. -/
def independentDiscounts (repo : String → Except Err Promotion) (now : Int)
    (items : List LineItem) (basePrices : List LineItemPrice)
    (codes : List String) : List AppliedDiscount :=
  codes.filterMap (fun code =>
    match repo code with
    | .error _ => none
    | .ok p =>
      if p.isValid now then (calculateDiscount p items basePrices).1 else none)

lemma independentDiscounts_congr (repo : String → Except Err Promotion)
    (now : Int) (items : List LineItem) :
    ∀ (codes : List String) (prices prices2 : List LineItemPrice),
      prices.map (fun q => q.subtotal) = prices2.map (fun q => q.subtotal) →
      independentDiscounts repo now items prices codes
        = independentDiscounts repo now items prices2 codes
  | [], prices, prices2, h => rfl
  | code :: codes, prices, prices2, h => by
    have ih := independentDiscounts_congr repo now items codes prices prices2 h
    simp only [independentDiscounts, List.filterMap_cons] at ih ⊢
    cases hrc : repo code with
    | error e => exact ih
    | ok p =>
      by_cases hv : p.isValid now = true
      · simp only [hv, if_true]
        rw [calculateDiscount_fst_eq p items prices prices2 h]
        cases (calculateDiscount p items prices2).1 with
        | none => exact ih
        | some d => rw [ih]
      · simp only [if_neg hv]
        exact ih

lemma applyPromotions_spec (repo : String → Except Err Promotion) (now : Int)
    (items : List LineItem) :
    ∀ (codes : List String) (prices : List LineItemPrice)
      (acc : List AppliedDiscount),
      (applyPromotions repo now items codes prices acc).1
          = acc ++ independentDiscounts repo now items prices codes ∧
      ((applyPromotions repo now items codes prices acc).2).map
          (fun q => q.subtotal) = prices.map (fun q => q.subtotal) ∧
      ((applyPromotions repo now items codes prices acc).2).map
          (fun q => q.taxAmount) = prices.map (fun q => q.taxAmount) ∧
      ((applyPromotions repo now items codes prices acc).2).length = prices.length
  | [], prices, acc => by
    simp [applyPromotions, independentDiscounts]
  | code :: codes, prices, acc => by
    simp only [applyPromotions, independentDiscounts, List.filterMap_cons]
    cases hrc : repo code with
    | error e =>
      have ih := applyPromotions_spec repo now items codes prices acc
      simpa [independentDiscounts] using ih
    | ok p =>
      cases hv : p.isValid now with
      | false =>
        have ih := applyPromotions_spec repo now items codes prices acc
        simpa [independentDiscounts, hv] using ih
      | true =>
        simp only [hv, Bool.true_eq_false, Bool.not_true, Bool.false_eq_true,
          if_false, if_true]
        rcases hcd : calculateDiscount p items prices with ⟨d, prices2⟩
        have hshape := calculateDiscount_shape p items prices
        rw [hcd] at hshape
        have hcongr := independentDiscounts_congr repo now items codes
          prices2 prices hshape.1
        cases d with
        | none =>
          have ih := applyPromotions_spec repo now items codes prices2 acc
          refine ⟨?_, ?_, ?_, ?_⟩
          · rw [ih.1, hcongr]
            simp [independentDiscounts]
          · rw [ih.2.1, hshape.1]
          · rw [ih.2.2.1, hshape.2.1]
          · rw [ih.2.2.2, hshape.2.2]
        | some d =>
          have ih := applyPromotions_spec repo now items codes prices2 (acc ++ [d])
          refine ⟨?_, ?_, ?_, ?_⟩
          · rw [ih.1, hcongr]
            simp [independentDiscounts]
          · rw [ih.2.1, hshape.1]
          · rw [ih.2.2.1, hshape.2.1]
          · rw [ih.2.2.2, hshape.2.2]

-- ### Toolkit: currency discipline and discount accounting

/-- Well-typed line prices: subtotal and running discount carry the cart
currency. -/
def WFPrices (cur : String) (prices : List LineItemPrice) : Prop :=
  ∀ q ∈ prices, q.subtotal.currency = cur ∧ q.discountAmount.currency = cur

/-- The discount types the stacking engine computes a real amount for
(the other two leave Go's zero value). -/
def stackableType (p : Promotion) : Prop :=
  p.discountType = .percentage ∨ p.discountType = .fixedAmount

lemma capDiscount_currency (md : Option Money) (d : Money) :
    (capDiscount md d).currency = d.currency := by
  cases md with
  | none => rfl
  | some maxD =>
    cases hg : d.greaterThan maxD with
    | error e => simp [capDiscount, hg]
    | ok b =>
      cases b with
      | false => simp [capDiscount, hg]
      | true =>
        simp only [capDiscount, hg]
        unfold Money.greaterThan at hg
        by_cases h : d.currency ≠ maxD.currency
        · rw [if_pos h] at hg
          cases hg
        · push_neg at h
          rw [h]

lemma itemDiscountFor_currency (p : Promotion) (cur : String)
    (price : LineItemPrice) (hp : stackableType p) (hcur : cur ≠ "")
    (hq : price.subtotal.currency = cur) :
    (itemDiscountFor p cur price).currency = cur := by
  unfold itemDiscountFor
  rw [capDiscount_currency]
  rcases hp with h | h
  · rw [h]
    simpa [Money.multiply] using hq
  · rw [h]
    simp [Money.newUnchecked, hcur]

lemma discountLoop_accounting (p : Promotion) (cur : String)
    (hp : stackableType p) (hcur : cur ≠ "") :
    ∀ (items : List LineItem) (prices : List LineItemPrice) (acc : Money)
      (ap : List String), acc.currency = cur → WFPrices cur prices →
      ((discountLoop p cur items prices acc ap).1.currency = cur ∧
       WFPrices cur (discountLoop p cur items prices acc ap).2.2 ∧
       (((discountLoop p cur items prices acc ap).2.2).map
           (fun q => q.discountAmount.amount)).sum
         = (prices.map (fun q => q.discountAmount.amount)).sum
           + ((discountLoop p cur items prices acc ap).1.amount - acc.amount))
  | [], prices, acc, ap, ha, hw => by
    refine ⟨by simpa [discountLoop] using ha, by simpa [discountLoop] using hw, ?_⟩
    simp [discountLoop]
  | _ :: items, [], acc, ap, ha, hw => by
    refine ⟨by simpa [discountLoop] using ha, ?_, ?_⟩
    · intro q hq
      simp [discountLoop] at hq
    · simp [discountLoop]
  | item :: items, price :: prices, acc, ap, ha, hw => by
    have hqw := hw price (List.mem_cons_self _ _)
    have hwrest : WFPrices cur prices :=
      fun q hq => hw q (List.mem_cons_of_mem _ hq)
    by_cases hc : p.canApplyToProduct item.productId = true
    · have hd : (itemDiscountFor p cur price).currency = cur :=
        itemDiscountFor_currency p cur price hp hcur hqw.1
      have hprice2 :
          price.discountAmount.addUnchecked (itemDiscountFor p cur price)
            = ⟨price.discountAmount.amount
                + (itemDiscountFor p cur price).amount, cur⟩ := by
        rw [addUnchecked_eq_of_currency _ _ (hqw.2.trans hd.symm), hqw.2]
      have hacc2 : acc.addUnchecked (itemDiscountFor p cur price)
          = ⟨acc.amount + (itemDiscountFor p cur price).amount, cur⟩ := by
        rw [addUnchecked_eq_of_currency _ _ (ha.trans hd.symm), ha]
      have ih := discountLoop_accounting p cur hp hcur items prices
        (acc.addUnchecked (itemDiscountFor p cur price)) (ap ++ [item.id])
        (by rw [hacc2]) hwrest
      simp only [discountLoop, hc, if_true]
      refine ⟨ih.1, ?_, ?_⟩
      · intro q hq
        rcases List.mem_cons.mp hq with h | h
        · subst h
          exact ⟨hqw.1, by rw [hprice2]⟩
        · exact ih.2.1 q h
      · simp only [List.map_cons, List.sum_cons, hprice2]
        rw [ih.2.2, hacc2]
        simp only []
        omega
    · have ih := discountLoop_accounting p cur hp hcur items prices acc ap ha hwrest
      simp only [discountLoop, hc, Bool.false_eq_true, if_false]
      refine ⟨ih.1, ?_, ?_⟩
      · intro q hq
        rcases List.mem_cons.mp hq with h | h
        · subst h
          exact hqw
        · exact ih.2.1 q h
      · simp only [List.map_cons, List.sum_cons]
        rw [ih.2.2]
        omega

/-- The amount a possibly-absent applied discount contributes. -/
def discountAmountOf : Option AppliedDiscount → Int
  | none => 0
  | some d => d.amount.amount

lemma calculateDiscount_accounting (p : Promotion) (first : LineItem)
    (rest : List LineItem) (prices : List LineItemPrice) (cur : String)
    (hcur2 : first.unitPrice.currency = cur) (hcur : cur ≠ "")
    (hp : stackableType p) (hw : WFPrices cur prices) :
    WFPrices cur (calculateDiscount p (first :: rest) prices).2 ∧
    (((calculateDiscount p (first :: rest) prices).2).map
        (fun q => q.discountAmount.amount)).sum
      = (prices.map (fun q => q.discountAmount.amount)).sum
        + discountAmountOf (calculateDiscount p (first :: rest) prices).1 ∧
    (∀ d, (calculateDiscount p (first :: rest) prices).1 = some d →
      d.amount.currency = cur) := by
  have hacc := discountLoop_accounting p cur hp hcur (first :: rest) prices
    (Money.zero cur) [] rfl hw
  simp only [calculateDiscount, hcur2]
  by_cases hz :
      (discountLoop p cur (first :: rest) prices (Money.zero cur) []).1.isZero
        = true
  · have hz0 :
        (discountLoop p cur (first :: rest) prices (Money.zero cur) []).1.amount
          = 0 := by
      simpa [Money.isZero] using hz
    simp only [hz, if_true]
    refine ⟨hacc.2.1, ?_, ?_⟩
    · rw [hacc.2.2, hz0]
      simp [discountAmountOf, Money.zero]
    · intro d hd
      cases hd
  · simp only [hz, Bool.false_eq_true, if_false]
    refine ⟨hacc.2.1, ?_, ?_⟩
    · rw [hacc.2.2]
      simp [discountAmountOf, Money.zero]
    · intro d hd
      cases hd
      exact hacc.1

lemma applyPromotions_accounting (repo : String → Except Err Promotion)
    (now : Int) (first : LineItem) (rest : List LineItem) (cur : String)
    (hcur2 : first.unitPrice.currency = cur) (hcur : cur ≠ "")
    (hrepo : ∀ code p, repo code = .ok p → stackableType p) :
    ∀ (codes : List String) (prices : List LineItemPrice)
      (acc : List AppliedDiscount), WFPrices cur prices →
      (∀ d ∈ acc, d.amount.currency = cur) →
      (WFPrices cur
          (applyPromotions repo now (first :: rest) codes prices acc).2 ∧
       (∀ d ∈ (applyPromotions repo now (first :: rest) codes prices acc).1,
          d.amount.currency = cur) ∧
       ((((applyPromotions repo now (first :: rest) codes prices acc).2).map
            (fun q => q.discountAmount.amount)).sum
          - ((((applyPromotions repo now (first :: rest) codes prices
                acc).1).map (fun d => d.amount.amount)).sum)
        = (prices.map (fun q => q.discountAmount.amount)).sum
          - ((acc.map (fun d => d.amount.amount)).sum)))
  | [], prices, acc, hw, hacc => by
    simpa [applyPromotions] using ⟨hw, hacc⟩
  | code :: codes, prices, acc, hw, hacc => by
    simp only [applyPromotions]
    cases hrc : repo code with
    | error e =>
      exact applyPromotions_accounting repo now first rest cur hcur2 hcur hrepo
        codes prices acc hw hacc
    | ok p =>
      cases hv : p.isValid now with
      | false =>
        simp only [hv, Bool.not_false, if_true]
        exact applyPromotions_accounting repo now first rest cur hcur2 hcur
          hrepo codes prices acc hw hacc
      | true =>
        simp only [hv, Bool.not_true, Bool.false_eq_true, if_false]
        have hp : stackableType p := hrepo code p hrc
        have hcd := calculateDiscount_accounting p first rest prices cur
          hcur2 hcur hp hw
        rcases hpair : calculateDiscount p (first :: rest) prices with ⟨d, prices2⟩
        rw [hpair] at hcd
        cases d with
        | none =>
          have ih := applyPromotions_accounting repo now first rest cur hcur2
            hcur hrepo codes prices2 acc hcd.1 hacc
          refine ⟨ih.1, ih.2.1, ?_⟩
          rw [ih.2.2]
          have := hcd.2.1
          simp only [discountAmountOf] at this
          omega
        | some d =>
          have hdcur : d.amount.currency = cur := hcd.2.2 d rfl
          have ih := applyPromotions_accounting repo now first rest cur hcur2
            hcur hrepo codes prices2 (acc ++ [d]) hcd.1
            (by
              intro x hx
              rcases List.mem_append.mp hx with h | h
              · exact hacc x h
              · rw [List.mem_singleton.mp h]
                exact hdcur)
          refine ⟨ih.1, ih.2.1, ?_⟩
          rw [ih.2.2]
          have := hcd.2.1
          simp only [discountAmountOf] at this
          simp only [List.map_append, List.sum_append, List.map_cons,
            List.sum_cons, List.map_nil, List.sum_nil]
          omega

-- ### Toolkit: tax write-back, taxable conversion, final line totals

lemma updateLineTaxes_spec :
    ∀ (prices : List LineItemPrice) (taxes : List LineItemTax),
      ((updateLineTaxes prices taxes).map (fun q => q.subtotal)
          = prices.map (fun q => q.subtotal)) ∧
      ((updateLineTaxes prices taxes).map (fun q => q.discountAmount)
          = prices.map (fun q => q.discountAmount)) ∧
      (updateLineTaxes prices taxes).length = prices.length ∧
      (taxes.length = prices.length →
        (updateLineTaxes prices taxes).map (fun q => q.taxAmount)
          = taxes.map (fun t => t.taxAmount))
  | prices, [] => by
    refine ⟨by simp [updateLineTaxes], by simp [updateLineTaxes],
      by simp [updateLineTaxes], ?_⟩
    intro h
    have : prices = [] := List.length_eq_zero.mp h.symm
    subst this
    simp [updateLineTaxes]
  | [], t :: taxes => by
    refine ⟨by simp [updateLineTaxes], by simp [updateLineTaxes],
      by simp [updateLineTaxes], ?_⟩
    intro h
    simp at h
  | price :: prices, t :: taxes => by
    have ih := updateLineTaxes_spec prices taxes
    refine ⟨?_, ?_, ?_, ?_⟩
    · simp [updateLineTaxes, ih.1]
    · simp [updateLineTaxes, ih.2.1]
    · simp [updateLineTaxes, ih.2.2.1]
    · intro h
      simp only [List.length_cons, Nat.succ.injEq] at h
      simp [updateLineTaxes, ih.2.2.2 h]

lemma convertToTaxableItems_amounts :
    ∀ (items : List LineItem) (prices : List LineItemPrice),
      items.length = prices.length →
      (convertToTaxableItems items prices).map (fun t => t.amount)
        = prices.map (fun q => q.subtotal)
  | [], [], _ => rfl
  | [], _ :: _, h => by simp at h
  | _ :: _, [], h => by simp at h
  | i :: is, q :: qs, h => by
    simp only [convertToTaxableItems, List.map_cons]
    rw [convertToTaxableItems_amounts is qs (by simpa using h)]

lemma finalizeLinePrice_total (q : LineItemPrice) (cur : String)
    (hs : q.subtotal.currency = cur) (hd : q.discountAmount.currency = cur)
    (ht : q.taxAmount.currency = cur) :
    (finalizeLinePrice q).total
      = ⟨q.subtotal.amount - q.discountAmount.amount + q.taxAmount.amount,
          cur⟩ := by
  simp only [finalizeLinePrice]
  rw [subtractUnchecked_eq_of_currency _ _ (hs.trans hd.symm),
    addUnchecked_eq_of_currency
      ⟨q.subtotal.amount - q.discountAmount.amount, q.subtotal.currency⟩
      q.taxAmount (hs.trans ht.symm)]
  simp [hs]

lemma field_currency_of_map_eq (f : LineItemPrice → Money) (cur : String)
    (l l2 : List LineItemPrice) (h : l.map f = l2.map f)
    (h2 : ∀ q ∈ l2, (f q).currency = cur) :
    ∀ q ∈ l, (f q).currency = cur := by
  intro q hq
  have hmem : f q ∈ l.map f := List.mem_map_of_mem f hq
  rw [h] at hmem
  obtain ⟨q2, hq2, he⟩ := List.mem_map.mp hmem
  rw [← he]
  exact h2 q2 hq2

lemma taxAmount_currency_of_map_eq (cur : String)
    (l : List LineItemPrice) (taxes : List LineItemTax)
    (h : l.map (fun q => q.taxAmount) = taxes.map (fun t => t.taxAmount))
    (h2 : ∀ t ∈ taxes, t.taxAmount.currency = cur) :
    ∀ q ∈ l, q.taxAmount.currency = cur := by
  intro q hq
  have hmem : q.taxAmount ∈ l.map (fun q => q.taxAmount) :=
    List.mem_map_of_mem _ hq
  rw [h] at hmem
  obtain ⟨t, ht, he⟩ := List.mem_map.mp hmem
  rw [← he]
  exact h2 t ht

lemma finalize_sum (cur : String) :
    ∀ (l : List LineItemPrice),
      (∀ q ∈ l, q.subtotal.currency = cur) →
      (∀ q ∈ l, q.discountAmount.currency = cur) →
      (∀ q ∈ l, q.taxAmount.currency = cur) →
      ((l.map finalizeLinePrice).map (fun q => q.total.amount)).sum
        = (l.map (fun q => q.subtotal.amount)).sum
          - (l.map (fun q => q.discountAmount.amount)).sum
          + (l.map (fun q => q.taxAmount.amount)).sum
  | [], _, _, _ => by simp
  | q :: l, hs, hd, ht => by
    have hq := finalizeLinePrice_total q cur (hs q (List.mem_cons_self _ _))
      (hd q (List.mem_cons_self _ _)) (ht q (List.mem_cons_self _ _))
    have ih := finalize_sum cur l
      (fun x hx => hs x (List.mem_cons_of_mem _ hx))
      (fun x hx => hd x (List.mem_cons_of_mem _ hx))
      (fun x hx => ht x (List.mem_cons_of_mem _ hx))
    simp only [List.map_cons, List.sum_cons, hq, ih]
    ring

lemma priceCart_ok (deps : PricingDeps) (now : Int) (c : Cart)
    (first : CartItem) (rest : List CartItem) (hc : c.items = first :: rest)
    (codes : List String) (mId : Option String) (addr : Option Address)
    (ti : Bool) :
    priceCart deps now ⟨some c, codes, mId, addr, ti⟩
      = .ok (some (priceCartCore deps now ⟨some c, codes, mId, addr, ti⟩
          c first)) := by
  simp only [priceCart]
  rw [hc]

/-- Claim C9: for a non-empty cart, `PriceCart` always returns a result and
no error; if the configured tax calculator fails on every request the
returned `TaxTotal` is zero, and if the configured shipping-rate calculator
fails on every request the returned `ShippingTotal` is zero. -/
theorem priceCart_degrades_on_collaborator_failure
    (now : Int) (c : Cart) (first : CartItem) (rest : List CartItem)
    (hc : c.items = first :: rest) (codes : List String)
    (mId : Option String) (addr : Option Address) (ti : Bool) :
    (∀ deps : PricingDeps, ∃ r : PricingResult,
      priceCart deps now ⟨some c, codes, mId, addr, ti⟩ = .ok (some r)) ∧
    (∀ (deps : PricingDeps) (f : TaxRequest → Option TaxResult),
      deps.taxCalculator = some f → (∀ q, f q = none) →
      ∃ r : PricingResult,
        priceCart deps now ⟨some c, codes, mId, addr, ti⟩ = .ok (some r) ∧
        r.taxTotal = Money.zero first.price.currency) ∧
    (∀ (deps : PricingDeps) (g : ShipRequest → Except Unit (Option ShippingRate)),
      deps.shippingCalc = some g → (∀ q, g q = .error ()) →
      ∃ r : PricingResult,
        priceCart deps now ⟨some c, codes, mId, addr, ti⟩ = .ok (some r) ∧
        r.shippingTotal = Money.zero first.price.currency) := by
  refine ⟨fun deps => ⟨_, priceCart_ok deps now c first rest hc codes mId addr ti⟩,
    ?_, ?_⟩
  · intro deps f hf hfail
    refine ⟨_, priceCart_ok deps now c first rest hc codes mId addr ti, ?_⟩
    simp only [priceCartCore, getTax, hf]
    cases addr with
    | none => rfl
    | some a =>
      dsimp only
      rw [hfail]
  · intro deps g hg hfail
    refine ⟨_, priceCart_ok deps now c first rest hc codes mId addr ti, ?_⟩
    simp only [priceCartCore, getShippingTotal, hg]
    cases mId with
    | none => rfl
    | some methodId =>
      dsimp only
      rw [hfail]

theorem priceCart_degrades_witness :
    ∃ r : PricingResult,
      priceCart ⟨repoDemo, some (fun _ => none), none⟩ 0
        ⟨some cartOneItem, [], none, some demoAddress, false⟩ = .ok (some r) ∧
      r.taxTotal = Money.zero "USD" :=
  (priceCart_degrades_on_collaborator_failure 0 cartOneItem
      ⟨"i1", "prod1", none, "SKU1", "widget", ⟨10000, "USD"⟩, 1⟩ [] rfl
      [] none (some demoAddress) false).2.1
    ⟨repoDemo, some (fun _ => none), none⟩ (fun _ => none) rfl (fun _ => rfl)

/-- Claim C2 (amended): the taxable base `PriceCart` hands to the tax
calculator is the **undiscounted** cart subtotal plus the shipping total:
each taxable item carries its line's undiscounted `Subtotal`
(`convertToTaxableItems`), and the per-line discounts already applied are
not subtracted.  Observed through a calculator that echoes its taxable base:
the echoed `TaxTotal` equals `Subtotal + ShippingTotal`, not
`Subtotal − DiscountTotal + ShippingTotal`. -/
theorem taxable_base_is_undiscounted_subtotal
    (repo : String → Except Err Promotion)
    (shipCalc : Option (ShipRequest → Except Unit (Option ShippingRate)))
    (now : Int) (c : Cart) (first : CartItem) (rest : List CartItem)
    (hc : c.items = first :: rest)
    (hcur : ∀ item ∈ c.items, item.price.currency = first.price.currency)
    (codes : List String) (mId : Option String) (addr : Address) (ti : Bool) :
    (∃ r : PricingResult,
      priceCart ⟨repo, some echoTaxCalculator, shipCalc⟩ now
          ⟨some c, codes, mId, some addr, ti⟩ = .ok (some r) ∧
      r.taxTotal.amount = r.subtotal.amount + r.shippingTotal.amount) ∧
    (∀ (items : List LineItem) (prices : List LineItemPrice),
      items.length = prices.length →
      (convertToTaxableItems items prices).map (fun t => t.amount)
        = prices.map (fun q => q.subtotal)) := by
  refine ⟨⟨_, priceCart_ok _ now c first rest hc codes mId (some addr) ti, ?_⟩,
    fun items prices h => convertToTaxableItems_amounts items prices h⟩
  have hmem : ∀ m ∈ (c.items.map toLineItem).map lineSubtotal,
      m.currency = first.price.currency := by
    intro m hm
    obtain ⟨i, hi, rfl⟩ := List.mem_map.mp hm
    obtain ⟨x, hx, rfl⟩ := List.mem_map.mp hi
    simpa [lineSubtotal, toLineItem, Money.multiplyInt] using hcur x hx
  have hsubfold := foldl_addUnchecked_spec first.price.currency
    ((c.items.map toLineItem).map lineSubtotal)
    (Money.zero first.price.currency) rfl hmem
  have hspec := applyPromotions_spec repo now (c.items.map toLineItem) codes
    ((c.items.map toLineItem).map (initialLinePrice first.price.currency)) []
  have hlen : (c.items.map toLineItem).length
      = ((applyPromotions repo now (c.items.map toLineItem) codes
          ((c.items.map toLineItem).map
            (initialLinePrice first.price.currency)) []).2).length := by
    rw [hspec.2.2.2]
    simp
  have hconv := convertToTaxableItems_amounts (c.items.map toLineItem)
    ((applyPromotions repo now (c.items.map toLineItem) codes
      ((c.items.map toLineItem).map
        (initialLinePrice first.price.currency)) []).2) hlen
  simp only [priceCartCore, getTax]
  dsimp only [echoTaxCalculator]
  rw [hsubfold]
  have hsum : ((convertToTaxableItems (c.items.map toLineItem)
        ((applyPromotions repo now (c.items.map toLineItem) codes
          ((c.items.map toLineItem).map
            (initialLinePrice first.price.currency)) []).2)).map
      (fun t => t.amount.amount)).sum
      = (((c.items.map toLineItem).map lineSubtotal).map Money.amount).sum := by
    have h1 : (fun (t : TaxableItem) => t.amount.amount)
        = (fun (m : Money) => m.amount) ∘ (fun (t : TaxableItem) => t.amount) :=
      rfl
    rw [h1, ← List.map_map, hconv, hspec.2.1]
    have h2 : (((c.items.map toLineItem).map
          (initialLinePrice first.price.currency)).map (fun q => q.subtotal))
        = (c.items.map toLineItem).map lineSubtotal := by
      rw [List.map_map]
      simp [Function.comp, initialLinePrice]
    rw [h2]
  rw [hsum]
  simp [Money.zero]

theorem taxable_base_witness :
    ∃ r : PricingResult,
      priceCart ⟨repoDemo, some echoTaxCalculator, none⟩ 0
          ⟨some cartOneItem, ["A"], none, some demoAddress, false⟩
        = .ok (some r) ∧
      r.taxTotal.amount = r.subtotal.amount + r.shippingTotal.amount :=
  (taxable_base_is_undiscounted_subtotal repoDemo none 0 cartOneItem
      ⟨"i1", "prod1", none, "SKU1", "widget", ⟨10000, "USD"⟩, 1⟩ [] rfl
      (by decide) ["A"] none demoAddress false).1

/-- Claim C5: every valid promotion's discount is computed independently
against the original, undiscounted line subtotals (the initial line-price
list), and `DiscountTotal` is the plain sum of those independently computed
amounts — additive, not compounding. -/
theorem discounts_stack_additively
    (repo : String → Except Err Promotion)
    (taxCalc : Option (TaxRequest → Option TaxResult))
    (shipCalc : Option (ShipRequest → Except Unit (Option ShippingRate)))
    (now : Int) (c : Cart) (first : CartItem) (rest : List CartItem)
    (hc : c.items = first :: rest)
    (hcur : ∀ item ∈ c.items, item.price.currency = first.price.currency)
    (hcur0 : first.price.currency ≠ "")
    (hrepo : ∀ code p, repo code = .ok p → stackableType p)
    (codes : List String) (mId : Option String) (addr : Option Address)
    (ti : Bool) :
    ∃ r : PricingResult,
      priceCart ⟨repo, taxCalc, shipCalc⟩ now ⟨some c, codes, mId, addr, ti⟩
        = .ok (some r) ∧
      r.appliedDiscounts
        = independentDiscounts repo now (c.items.map toLineItem)
            ((c.items.map toLineItem).map
              (initialLinePrice first.price.currency)) codes ∧
      r.discountTotal.amount
        = ((independentDiscounts repo now (c.items.map toLineItem)
            ((c.items.map toLineItem).map
              (initialLinePrice first.price.currency)) codes).map
          (fun d => d.amount.amount)).sum := by
  have hLI : c.items.map toLineItem
      = toLineItem first :: rest.map toLineItem := by
    rw [hc]
    simp
  have hwf0 : WFPrices first.price.currency
      ((c.items.map toLineItem).map (initialLinePrice first.price.currency)) := by
    intro q hq
    obtain ⟨i, hi, rfl⟩ := List.mem_map.mp hq
    obtain ⟨x, hx, rfl⟩ := List.mem_map.mp hi
    exact ⟨by simpa [initialLinePrice, lineSubtotal, toLineItem,
        Money.multiplyInt] using hcur x hx,
      by simp [initialLinePrice, Money.zero]⟩
  have hspec := applyPromotions_spec repo now (c.items.map toLineItem) codes
    ((c.items.map toLineItem).map (initialLinePrice first.price.currency)) []
  have hacct := applyPromotions_accounting repo now (toLineItem first)
    (rest.map toLineItem) first.price.currency (by simp [toLineItem]) hcur0
    hrepo codes
    ((c.items.map toLineItem).map (initialLinePrice first.price.currency)) []
    hwf0 (by simp)
  rw [← hLI] at hacct
  refine ⟨_, priceCart_ok _ now c first rest hc codes mId addr ti, ?_, ?_⟩
  · simp only [priceCartCore]
    rw [hspec.1]
    simp
  · simp only [priceCartCore]
    have hcurs : ∀ m ∈ ((applyPromotions repo now (c.items.map toLineItem)
        codes ((c.items.map toLineItem).map
          (initialLinePrice first.price.currency)) []).1).map
        AppliedDiscount.amount, m.currency = first.price.currency := by
      intro m hm
      obtain ⟨d, hd, rfl⟩ := List.mem_map.mp hm
      exact hacct.2.1 d hd
    rw [foldl_addUnchecked_spec first.price.currency
      (((applyPromotions repo now (c.items.map toLineItem) codes
        ((c.items.map toLineItem).map
          (initialLinePrice first.price.currency)) []).1).map
        AppliedDiscount.amount)
      (Money.zero first.price.currency) rfl hcurs, hspec.1]
    simp [List.map_map, Money.zero, Function.comp]
    rfl

lemma repoDemo_stackable : ∀ (code : String) (p : Promotion),
    repoDemo code = .ok p → stackableType p := by
  intro code p h
  by_cases h1 : code = "A"
  · simp [repoDemo, h1] at h
    rw [← h]
    exact Or.inl rfl
  · by_cases h2 : code = "B"
    · simp [repoDemo, h1, h2] at h
      rw [← h]
      exact Or.inr rfl
    · simp [repoDemo, h1, h2] at h

theorem discounts_stack_witness :
    ∃ r : PricingResult,
      priceCart ⟨repoDemo, none, none⟩ 0
          ⟨some cartOneItem, ["A", "B"], none, none, false⟩ = .ok (some r) ∧
      r.discountTotal.amount = 1500 := by
  obtain ⟨r, h1, _, h3⟩ := discounts_stack_additively repoDemo none none 0
    cartOneItem ⟨"i1", "prod1", none, "SKU1", "widget", ⟨10000, "USD"⟩, 1⟩
    [] rfl (by decide) (by decide) repoDemo_stackable
    ["A", "B"] none none false
  refine ⟨r, h1, ?_⟩
  rw [h3]
  decide

-- ### Toolkit: `MinPurchase` is dead data for the pricing engine

/-- The same promotion with `MinPurchase` removed. -/
def eraseMinPurchase (p : Promotion) : Promotion :=
  { p with minPurchase := none }

lemma discountLoop_eraseMin (p : Promotion) (cur : String) :
    ∀ (items : List LineItem) (prices : List LineItemPrice) (acc : Money)
      (ap : List String),
      discountLoop (eraseMinPurchase p) cur items prices acc ap
        = discountLoop p cur items prices acc ap
  | [], _, _, _ => rfl
  | _ :: _, [], _, _ => rfl
  | item :: items, price :: prices, acc, ap => by
    have ih1 := discountLoop_eraseMin p cur items prices
      (acc.addUnchecked (itemDiscountFor p cur price)) (ap ++ [item.id])
    have ih2 := discountLoop_eraseMin p cur items prices acc ap
    have hca : (eraseMinPurchase p).canApplyToProduct item.productId
        = p.canApplyToProduct item.productId := rfl
    have hidf : itemDiscountFor (eraseMinPurchase p) cur price
        = itemDiscountFor p cur price := rfl
    simp only [discountLoop, hca, hidf]
    by_cases h : p.canApplyToProduct item.productId = true
    · simp only [h, if_true, ih1]
    · simp only [h, Bool.false_eq_true, if_false, ih2]

lemma calculateDiscount_eraseMin (p : Promotion) (items : List LineItem)
    (prices : List LineItemPrice) :
    calculateDiscount (eraseMinPurchase p) items prices
      = calculateDiscount p items prices := by
  cases items with
  | nil => rfl
  | cons first rest =>
    simp only [calculateDiscount, discountLoop_eraseMin]
    rfl

lemma applyPromotions_eraseMin (repo : String → Except Err Promotion)
    (now : Int) (items : List LineItem) :
    ∀ (codes : List String) (prices : List LineItemPrice)
      (acc : List AppliedDiscount),
      applyPromotions (fun code => (repo code).map eraseMinPurchase) now items
          codes prices acc
        = applyPromotions repo now items codes prices acc
  | [], _, _ => rfl
  | code :: codes, prices, acc => by
    simp only [applyPromotions]
    cases hrc : repo code with
    | error e =>
      simp only [hrc, Except.map]
      exact applyPromotions_eraseMin repo now items codes prices acc
    | ok p =>
      simp only [hrc, Except.map]
      have hval : (eraseMinPurchase p).isValid now = p.isValid now := rfl
      rw [hval, calculateDiscount_eraseMin]
      cases hv : p.isValid now with
      | false =>
        simp only [Bool.not_false, if_true]
        exact applyPromotions_eraseMin repo now items codes prices acc
      | true =>
        simp only [Bool.not_true, Bool.false_eq_true, if_false]
        rcases calculateDiscount p items prices with ⟨d, prices2⟩
        cases d with
        | none => exact applyPromotions_eraseMin repo now items codes prices2 acc
        | some d =>
          exact applyPromotions_eraseMin repo now items codes prices2 (acc ++ [d])

/-- A valid 10 percent promotion with code `M` and a `MinPurchase` of 999999
minor units — far above the demo cart's subtotal. -/
def promoTenWithMin : Promotion :=
  { promoTen with
    id := "pM"
    code := "M"
    minPurchase := some ⟨999999, "USD"⟩ }

/-- A promotion repository holding only `promoTenWithMin`. -/
def minRepoDemo : String → Except Err Promotion := fun code =>
  if code = "M" then .ok promoTenWithMin else .error (.repoFailure 0)

/-- Claim C10: `MinPurchase` is never consulted while applying promotions —
`PriceCart` is unchanged when every promotion's `MinPurchase` is erased, and
a valid promotion discounts a cart whose subtotal (10000) is far below its
`MinPurchase` (999999).  `MinPurchase` is enforced only by
`ValidatePromotion`, which accepts exactly when the cart total strictly
exceeds it in the same currency, and otherwise rejects with
`ErrMinPurchaseNotMet` — equality is rejected. -/
theorem minPurchase_policy :
    (∀ (deps : PricingDeps) (now : Int) (req : PriceCartRequest),
      priceCart { deps with promotionRepo :=
          fun code => (deps.promotionRepo code).map eraseMinPurchase } now req
        = priceCart deps now req) ∧
    ((pricingOutput (priceCart ⟨minRepoDemo, none, none⟩ 0
        ⟨some cartOneItem, ["M"], none, none, false⟩)).map
      (fun r => r.discountTotal.amount) = some 1000) ∧
    (∀ (repo : String → Except Err Promotion) (now : Int) (code : String)
        (cartTotal : Money) (p : Promotion) (mp : Money),
      repo code = .ok p → p.isValid now = true → p.minPurchase = some mp →
      validatePromotion repo now code cartTotal
        = if cartTotal.currency = mp.currency ∧ mp.amount < cartTotal.amount
          then .ok p else .error .minPurchaseNotMet) := by
  refine ⟨?_, by decide, ?_⟩
  · intro deps now req
    rcases req with ⟨ocart, codes, mId, addr, ti⟩
    cases ocart with
    | none => rfl
    | some c =>
      rcases c with ⟨items⟩
      cases items with
      | nil => rfl
      | cons first rest =>
        simp only [priceCart, priceCartCore]
        rw [applyPromotions_eraseMin]
  · intro repo now code cartTotal p mp hrc hv hmp
    unfold validatePromotion
    rw [hrc]
    dsimp only
    rw [hv]
    simp only [Bool.not_true, Bool.false_eq_true, if_false]
    rw [hmp]
    dsimp only
    unfold Money.greaterThan
    by_cases hcc : cartTotal.currency = mp.currency
    · rw [if_neg (by simpa using hcc)]
      by_cases hgt : mp.amount < cartTotal.amount
      · rw [if_pos ⟨hcc, hgt⟩]
        simp [hgt]
      · rw [if_neg (by simp [hcc, hgt])]
        simp [hgt]
    · rw [if_pos (by simpa using hcc), if_neg (by simp [hcc])]

theorem minPurchase_policy_witness :
    validatePromotion minRepoDemo 0 "M" ⟨999999, "USD"⟩
      = .error .minPurchaseNotMet := by
  rw [minPurchase_policy.2.2 minRepoDemo 0 "M" ⟨999999, "USD"⟩ promoTenWithMin
    ⟨999999, "USD"⟩ rfl (by decide) rfl]
  rw [if_neg (by decide)]

lemma getShippingTotal_currency
    (sc : Option (ShipRequest → Except Unit (Option ShippingRate)))
    (mId : Option String) (items : List ShippableItem) (dest : Address)
    (cur : String)
    (h : ∀ g, sc = some g → ∀ q rate, g q = .ok (some rate) →
      rate.cost.currency = cur) :
    (getShippingTotal sc mId items dest cur).currency = cur := by
  cases mId with
  | none => rfl
  | some methodId =>
    cases sc with
    | none => rfl
    | some g =>
      simp only [getShippingTotal]
      cases hr : g ⟨items, dest, methodId⟩ with
      | error e => rfl
      | ok orate =>
        cases orate with
        | none => rfl
        | some rate => exact h g rfl _ rate hr

lemma convertToTaxableItems_length :
    ∀ (items : List LineItem) (prices : List LineItemPrice),
      items.length = prices.length →
      (convertToTaxableItems items prices).length = prices.length
  | [], [], _ => rfl
  | [], _ :: _, h => by simp at h
  | _ :: _, [], h => by simp at h
  | i :: is, q :: qs, h => by
    simp only [convertToTaxableItems, List.length_cons]
    rw [convertToTaxableItems_length is qs (by simpa using h)]

lemma getTax_spec (tc : Option (TaxRequest → Option TaxResult))
    (addr : Option Address) (lineItems : List LineItem)
    (prices1 : List LineItemPrice) (st : Money) (ti : Bool) (cur : String)
    (htax : ∀ f, tc = some f → ∀ q res, f q = some res →
      res.totalTax.currency = cur ∧
      res.lineItemTaxes.length = q.lineItems.length ∧
      (res.lineItemTaxes.map (fun t => t.taxAmount.amount)).sum
        = res.totalTax.amount ∧
      (∀ t ∈ res.lineItemTaxes, t.taxAmount.currency = cur))
    (hlen : lineItems.length = prices1.length)
    (hptax : ∀ q ∈ prices1, q.taxAmount = Money.zero cur) :
    (getTax tc addr lineItems prices1 st ti cur).1.currency = cur ∧
    ((getTax tc addr lineItems prices1 st ti cur).2.map (fun q => q.subtotal)
      = prices1.map (fun q => q.subtotal)) ∧
    ((getTax tc addr lineItems prices1 st ti cur).2.map
        (fun q => q.discountAmount)
      = prices1.map (fun q => q.discountAmount)) ∧
    (((getTax tc addr lineItems prices1 st ti cur).2.map
        (fun q => q.taxAmount.amount)).sum
      = (getTax tc addr lineItems prices1 st ti cur).1.amount) ∧
    (∀ q ∈ (getTax tc addr lineItems prices1 st ti cur).2,
      q.taxAmount.currency = cur) := by
  have hbase : (prices1.map (fun q => q.taxAmount.amount)).sum = 0 := by
    have : prices1.map (fun q => q.taxAmount.amount)
        = prices1.map (fun _ => (0 : Int)) := by
      apply List.map_congr_left
      intro q hq
      rw [hptax q hq]
      rfl
    rw [this]
    simp
  have hbasecur : ∀ q ∈ prices1, q.taxAmount.currency = cur := by
    intro q hq
    rw [hptax q hq]
    rfl
  cases addr with
  | none => exact ⟨rfl, rfl, rfl, by simpa [getTax] using hbase, hbasecur⟩
  | some a =>
    cases tc with
    | none => exact ⟨rfl, rfl, rfl, by simpa [getTax] using hbase, hbasecur⟩
    | some f =>
      simp only [getTax]
      cases hres : f ⟨convertToTaxableItems lineItems prices1, st,
          convertToTaxAddress (some a), ti⟩ with
      | none => exact ⟨rfl, rfl, rfl, by simpa using hbase, hbasecur⟩
      | some res =>
        have hco := htax f rfl _ res hres
        have hlen2 : res.lineItemTaxes.length = prices1.length := by
          rw [hco.2.1]
          exact convertToTaxableItems_length lineItems prices1 hlen
        have hupd := updateLineTaxes_spec prices1 res.lineItemTaxes
        refine ⟨hco.1, hupd.1, hupd.2.1, ?_, ?_⟩
        · have hmap := hupd.2.2.2 hlen2
          have : (updateLineTaxes prices1 res.lineItemTaxes).map
              (fun q => q.taxAmount.amount)
              = (res.lineItemTaxes.map (fun t => t.taxAmount)).map
                  (fun m => m.amount) := by
            rw [← hmap, List.map_map]
            rfl
          rw [this, List.map_map]
          have h2 := hco.2.2.1
          rw [← h2]
          rfl
        · exact taxAmount_currency_of_map_eq cur _ res.lineItemTaxes
            (hupd.2.2.2 hlen2) hco.2.2.2

lemma sum_map_const_zero {α : Type} (l : List α) :
    (l.map (fun _ => (0 : Int))).sum = 0 := by
  induction l with
  | nil => rfl
  | cons x l ih => simp [ih]

lemma sum_map_amount_amount (l : List AppliedDiscount) :
    (l.map (fun d => d.amount.amount)).sum
      = ((l.map AppliedDiscount.amount).map Money.amount).sum := by
  rw [List.map_map]
  rfl

lemma sum_sub_amount_initial (cur : String) (items : List LineItem) :
    ((items.map (initialLinePrice cur)).map (fun q => q.subtotal.amount)).sum
      = ((items.map lineSubtotal).map Money.amount).sum := by
  rw [List.map_map, List.map_map]
  rfl

lemma totals_chain (a b : Int) (t st : Money) (cur : String)
    (ht : t.currency = cur) (hst : st.currency = cur) :
    ((((⟨a, cur⟩ : Money).subtractUnchecked ⟨b, cur⟩).addUnchecked
        t).addUnchecked st).amount
      = a - b + t.amount + st.amount := by
  rw [subtractUnchecked_eq_of_currency ⟨a, cur⟩ ⟨b, cur⟩ rfl,
    addUnchecked_eq_of_currency ⟨a - b, cur⟩ t ht.symm,
    addUnchecked_eq_of_currency ⟨a - b + t.amount, cur⟩ st hst.symm]

lemma sum_amount_of_map_eq (f : LineItemPrice → Money)
    (l l2 : List LineItemPrice) (h : l.map f = l2.map f) :
    (l.map (fun q => (f q).amount)).sum = (l2.map (fun q => (f q).amount)).sum := by
  have := congrArg (fun x => (List.map Money.amount x).sum) h
  simpa [List.map_map, Function.comp] using this

/-- Claim C4 (amended): for a successfully priced single-currency cart whose
promotions are percentage or fixed-amount and whose collaborators answer in
the cart currency, `Total = Subtotal − DiscountTotal + TaxTotal +
ShippingTotal` exactly in minor units; and when the tax calculator reports
one per-line tax per taxable line with the per-line taxes summing to its
`TotalTax` (an incoherent calculator breaks this — see the counterexample),
the per-line totals sum to `Subtotal − DiscountTotal + TaxTotal` (shipping
is cart-level, not allocated per line). -/
theorem pricing_total_identity
    (deps : PricingDeps) (now : Int) (c : Cart) (first : CartItem)
    (rest : List CartItem) (hc : c.items = first :: rest)
    (hcur : ∀ item ∈ c.items, item.price.currency = first.price.currency)
    (hcur0 : first.price.currency ≠ "")
    (hrepo : ∀ code p, deps.promotionRepo code = .ok p → stackableType p)
    (htax : ∀ f, deps.taxCalculator = some f → ∀ q res, f q = some res →
      res.totalTax.currency = first.price.currency ∧
      res.lineItemTaxes.length = q.lineItems.length ∧
      (res.lineItemTaxes.map (fun t => t.taxAmount.amount)).sum
        = res.totalTax.amount ∧
      (∀ t ∈ res.lineItemTaxes,
        t.taxAmount.currency = first.price.currency))
    (hship : ∀ g, deps.shippingCalc = some g → ∀ q rate,
      g q = .ok (some rate) → rate.cost.currency = first.price.currency)
    (codes : List String) (mId : Option String) (addr : Option Address)
    (ti : Bool) :
    ∃ r : PricingResult,
      priceCart deps now ⟨some c, codes, mId, addr, ti⟩ = .ok (some r) ∧
      r.total.amount = r.subtotal.amount - r.discountTotal.amount
        + r.taxTotal.amount + r.shippingTotal.amount ∧
      (r.lineItemPrices.map (fun q => q.total.amount)).sum
        = r.subtotal.amount - r.discountTotal.amount + r.taxTotal.amount := by
  have hLI : c.items.map toLineItem
      = toLineItem first :: rest.map toLineItem := by
    rw [hc]
    simp
  have hwf0 : WFPrices first.price.currency
      ((c.items.map toLineItem).map (initialLinePrice first.price.currency)) := by
    intro q hq
    obtain ⟨i, hi, rfl⟩ := List.mem_map.mp hq
    obtain ⟨x, hx, rfl⟩ := List.mem_map.mp hi
    exact ⟨by simpa [initialLinePrice, lineSubtotal, toLineItem,
        Money.multiplyInt] using hcur x hx,
      by simp [initialLinePrice, Money.zero]⟩
  have hmemS : ∀ m ∈ (c.items.map toLineItem).map lineSubtotal,
      m.currency = first.price.currency := by
    intro m hm
    obtain ⟨i, hi, rfl⟩ := List.mem_map.mp hm
    obtain ⟨x, hx, rfl⟩ := List.mem_map.mp hi
    simpa [lineSubtotal, toLineItem, Money.multiplyInt] using hcur x hx
  have hsubfold := foldl_addUnchecked_spec first.price.currency
    ((c.items.map toLineItem).map lineSubtotal)
    (Money.zero first.price.currency) rfl hmemS
  have hspec := applyPromotions_spec deps.promotionRepo now
    (c.items.map toLineItem) codes
    ((c.items.map toLineItem).map (initialLinePrice first.price.currency)) []
  have hacct := applyPromotions_accounting deps.promotionRepo now
    (toLineItem first) (rest.map toLineItem) first.price.currency
    (by simp [toLineItem]) hcur0 hrepo codes
    ((c.items.map toLineItem).map (initialLinePrice first.price.currency)) []
    hwf0 (by simp)
  rw [← hLI] at hacct
  have hP0disc : ((((c.items.map toLineItem).map
      (initialLinePrice first.price.currency)).map
        (fun q => q.discountAmount.amount)).sum) = 0 := by
    have h : (((c.items.map toLineItem).map
        (initialLinePrice first.price.currency)).map
          (fun q => q.discountAmount.amount))
        = (c.items.map toLineItem).map (fun _ => (0 : Int)) := by
      rw [List.map_map]
      apply List.map_congr_left
      intro i _
      rfl
    rw [h]
    exact sum_map_const_zero _
  have hdsum : (((applyPromotions deps.promotionRepo now
        (c.items.map toLineItem) codes ((c.items.map toLineItem).map
          (initialLinePrice first.price.currency)) []).2).map
        (fun q => q.discountAmount.amount)).sum
      = (((applyPromotions deps.promotionRepo now (c.items.map toLineItem)
          codes ((c.items.map toLineItem).map
            (initialLinePrice first.price.currency)) []).1).map
        (fun d => d.amount.amount)).sum := by
    have h := hacct.2.2
    rw [hP0disc] at h
    simp only [List.map_nil, List.sum_nil] at h
    omega
  have hcursD : ∀ m ∈ ((applyPromotions deps.promotionRepo now
      (c.items.map toLineItem) codes ((c.items.map toLineItem).map
        (initialLinePrice first.price.currency)) []).1).map
      AppliedDiscount.amount, m.currency = first.price.currency := by
    intro m hm
    obtain ⟨d, hd, rfl⟩ := List.mem_map.mp hm
    exact hacct.2.1 d hd
  have hDfold := foldl_addUnchecked_spec first.price.currency
    (((applyPromotions deps.promotionRepo now (c.items.map toLineItem) codes
      ((c.items.map toLineItem).map
        (initialLinePrice first.price.currency)) []).1).map
      AppliedDiscount.amount)
    (Money.zero first.price.currency) rfl hcursD
  have hptax1 : ∀ q ∈ (applyPromotions deps.promotionRepo now
      (c.items.map toLineItem) codes ((c.items.map toLineItem).map
        (initialLinePrice first.price.currency)) []).2,
      q.taxAmount = Money.zero first.price.currency := by
    intro q hq
    have h1 : q.taxAmount ∈ ((applyPromotions deps.promotionRepo now
        (c.items.map toLineItem) codes ((c.items.map toLineItem).map
          (initialLinePrice first.price.currency)) []).2).map
        (fun q => q.taxAmount) := List.mem_map_of_mem _ hq
    rw [hspec.2.2.1] at h1
    obtain ⟨p0, hp0, he⟩ := List.mem_map.mp h1
    obtain ⟨i, hi, rfl⟩ := List.mem_map.mp hp0
    rw [← he]
    rfl
  have hlen1 : (c.items.map toLineItem).length
      = ((applyPromotions deps.promotionRepo now (c.items.map toLineItem)
        codes ((c.items.map toLineItem).map
          (initialLinePrice first.price.currency)) []).2).length := by
    rw [hspec.2.2.2]
    simp
  have hgt := getTax_spec deps.taxCalculator addr (c.items.map toLineItem)
    ((applyPromotions deps.promotionRepo now (c.items.map toLineItem) codes
      ((c.items.map toLineItem).map
        (initialLinePrice first.price.currency)) []).2)
    (getShippingTotal deps.shippingCalc mId
      (convertToShippingItems (c.items.map toLineItem))
      (convertToShippingAddress addr) first.price.currency)
    ti first.price.currency htax hlen1 hptax1
  have hSTcur := getShippingTotal_currency deps.shippingCalc mId
    (convertToShippingItems (c.items.map toLineItem))
    (convertToShippingAddress addr) first.price.currency hship
  have hP1subsum : (((applyPromotions deps.promotionRepo now
        (c.items.map toLineItem) codes ((c.items.map toLineItem).map
          (initialLinePrice first.price.currency)) []).2).map
        (fun q => q.subtotal.amount)).sum
      = (((c.items.map toLineItem).map lineSubtotal).map Money.amount).sum := by
    have h1 := sum_amount_of_map_eq (fun q => q.subtotal) _ _ hspec.2.1
    rw [h1]
    exact sum_sub_amount_initial first.price.currency (c.items.map toLineItem)
  refine ⟨_, priceCart_ok deps now c first rest hc codes mId addr ti, ?_, ?_⟩
  · simp only [priceCartCore]
    rw [hsubfold, hDfold, totals_chain _ _ _ _ first.price.currency
      hgt.1 hSTcur]
  · simp only [priceCartCore]
    have hsub2 := field_currency_of_map_eq (fun q => q.subtotal)
      first.price.currency _ _ hgt.2.1 (fun q hq => (hacct.1 q hq).1)
    have hdisc2 := field_currency_of_map_eq (fun q => q.discountAmount)
      first.price.currency _ _ hgt.2.2.1 (fun q hq => (hacct.1 q hq).2)
    rw [finalize_sum first.price.currency _ hsub2 hdisc2 hgt.2.2.2.2]
    rw [hsubfold, hDfold]
    have hs2 := sum_amount_of_map_eq (fun q => q.subtotal) _ _ hgt.2.1
    have hd2 := sum_amount_of_map_eq (fun q => q.discountAmount) _ _ hgt.2.2.1
    have hmapD := sum_map_amount_amount ((applyPromotions deps.promotionRepo
      now (c.items.map toLineItem) codes ((c.items.map toLineItem).map
        (initialLinePrice first.price.currency)) []).1)
    rw [hs2, hd2, hP1subsum, hdsum, hgt.2.2.2.1, hmapD]
    simp [Money.zero]

theorem pricing_total_identity_witness :
    ∃ r : PricingResult,
      priceCart ⟨repoDemo, none, none⟩ 0
        ⟨some cartOneItem, ["A", "B"], none, none, false⟩ = .ok (some r) ∧
      r.total.amount = r.subtotal.amount - r.discountTotal.amount
        + r.taxTotal.amount + r.shippingTotal.amount ∧
      (r.lineItemPrices.map (fun q => q.total.amount)).sum
        = r.subtotal.amount - r.discountTotal.amount + r.taxTotal.amount :=
  pricing_total_identity ⟨repoDemo, none, none⟩ 0 cartOneItem
    ⟨"i1", "prod1", none, "SKU1", "widget", ⟨10000, "USD"⟩, 1⟩ [] rfl
    (by decide) (by decide) repoDemo_stackable
    (fun f h => Option.noConfusion h) (fun g h => Option.noConfusion h)
    ["A", "B"] none none false

-- ### Order orchestration: `orders.OrderService.CreateFromCart`

/-- `payments.IntentStatus`. -/
inductive IntentStatus where
  | pending
  | requiresAction
  | processing
  | succeeded
  | canceled
  | failed
  deriving DecidableEq, Repr

/-- `payments.IntentRequest` (the fields `CreateFromCart` fills). -/
structure IntentRequest where
  amount : Money
  currency : String
  paymentMethodId : String
  orderId : String
  description : String
  deriving DecidableEq, Repr

/-- `payments.PaymentIntent` (only `Status` is read by the orchestrator). -/
structure PaymentIntent where
  status : IntentStatus
  deriving DecidableEq, Repr

/-- An inventory reservation: a hold of `quantity` units of `sku` under
`referenceId`, as the spec's inventory vocabulary describes it. -/
structure Hold where
  sku : String
  quantity : Int
  referenceId : String
  deriving DecidableEq, Repr

/-- `orders.CreateOrderRequest` (`Notes` kept; `IPAddress`/`UserAgent`
omitted: copied verbatim into fields no claim reads). -/
structure CreateOrderRequest where
  cart : Option Cart
  userId : String
  shippingAddress : OrdAddress
  billingAddress : OrdAddress
  paymentMethodId : String
  promotionCodes : List String
  shippingMethodId : String
  notes : String

/-- The orchestrator's collaborators.  `inventory.Service` has no
implementation in the repository, so reservation is an oracle
(`reserveOutcome sku qty`: `none` = reserved, `some e` = failure) over a
hold list; the order repository's `Save` likewise
(`saveOutcome`).  `idGenerator` is deterministic over a call counter
threaded through the state. -/
structure OrchDeps where
  pricing : PricingDeps
  now : Int
  inventoryConfigured : Bool
  reserveOutcome : String → Int → Option Err
  saveOutcome : Order → Option Err
  paymentGateway : Option (IntentRequest → Except Err PaymentIntent)
  orderNumberGen : String
  idGenerator : Nat → String

/-- The side-effect state a `CreateFromCart` call threads: currently held
inventory reservations, the log of successfully persisted orders, and the
id-generator counter. -/
structure OrchState where
  holds : List Hold
  savedOrders : List Order
  nextId : Nat
  deriving Repr

/-- Modelled from the spec: `release(sku, qty, referenceId)` drops the
matching hold — no `inventory.Service` implementation exists in the
repository, only the interface, so the semantics are the spec's (§4.4
step 2, "release every reservation already made under that reference id").
The orchestrator's `rollbackInventory` calls it with an empty SKU and zero
quantity, which this model reads as releasing every hold under the
reference id. -/
def releaseHolds (sku : String) (quantity : Int) (referenceId : String)
    (holds : List Hold) : List Hold :=
  holds.filter (fun h => !(h.referenceId == referenceId &&
    (sku == "" || (h.sku == sku && h.quantity == quantity))))

/-- `orders.OrderService.rollbackInventory`: releases under the reservation
id with empty SKU and zero quantity, when inventory is configured. -/
def rollbackInventory (deps : OrchDeps) (reservationId : String)
    (holds : List Hold) : List Hold :=
  if deps.inventoryConfigured then releaseHolds "" 0 reservationId holds
  else holds

/-- The inventory-reservation loop of `CreateFromCart`: reserve each line
under the single reservation id; on the first failure, roll back and stop
with the underlying error. -/
def reserveLoop (deps : OrchDeps) (reservationId : String) :
    List CartItem → OrchState → Option Err × OrchState
  | [], st => (none, st)
  | item :: rest, st =>
    match deps.reserveOutcome item.sku item.quantity with
    | some e =>
      (some e,
        { st with holds := rollbackInventory deps reservationId st.holds })
    | none =>
      reserveLoop deps reservationId rest
        { st with
          holds := st.holds ++ [⟨item.sku, item.quantity, reservationId⟩] }

/-- The Go zero value of `pricing.LineItemPrice`, used when a cart line has
no matching entry in `PricingResult.LineItemPrices`. -/
def zeroLineItemPrice : LineItemPrice :=
  ⟨"", ⟨0, ""⟩, ⟨0, ""⟩, ⟨0, ""⟩, ⟨0, ""⟩⟩

/-- The order-item construction loop of `CreateFromCart`: the i-th cart
line is paired with `LineItemPrices[i]` when the index is in range and with
the zero `LineItemPrice` otherwise; each order item consumes one generated
id. -/
def buildOrderItems (deps : OrchDeps) (prices : List LineItemPrice) :
    List CartItem → Nat → OrchState → List OrderItem × OrchState
  | [], _, st => ([], st)
  | item :: rest, i, st =>
    let ip := prices.getD i zeroLineItemPrice
    let oid := deps.idGenerator st.nextId
    let res := buildOrderItems deps prices rest (i + 1)
      { st with nextId := st.nextId + 1 }
    (⟨oid, item.productId, item.variantId, item.sku, item.name, item.price,
      item.quantity, ip.discountAmount, ip.taxAmount, ip.total⟩ :: res.1,
     res.2)

/-- The payment tail of `CreateFromCart`: with no gateway the pending order
is returned; a gateway transport error is surfaced as `PaymentFailed`
without the order; a succeeded intent transitions the order to `paid` and
re-persists it with the save error discarded; any other intent status
returns the still-pending order with no error. -/
def processPayment (deps : OrchDeps) (paymentMethodId : String)
    (order : Order) (st : OrchState) : Except Err Order × OrchState :=
  match deps.paymentGateway with
  | none => (.ok order, st)
  | some gw =>
    match gw ⟨order.total, order.total.currency, paymentMethodId, order.id,
              "Order " ++ order.orderNumber⟩ with
    | .error _ => (.error .paymentFailed, st)
    | .ok intent =>
      if intent.status = IntentStatus.succeeded then
        let order2 := (order.updateStatus .paid).2
        match deps.saveOutcome order2 with
        | some _ => (.ok order2, st)
        | none =>
          (.ok order2, { st with savedOrders := st.savedOrders ++ [order2] })
      else (.ok order, st)

/-- `orders.OrderService.CreateFromCart`.  The `.ok none` answer from
`priceCart` cannot occur past the empty-cart guard (the Go code would
dereference nil there); the branch is dead and mapped to the empty-cart
error.  On a `Save` failure the Go code returns the error without touching
the holds — faithfully kept (this is the missing compensation of claim
C1). -/
def createFromCart (deps : OrchDeps) (req : CreateOrderRequest)
    (st : OrchState) : Except Err Order × OrchState :=
  match req.cart with
  | none => (.error .emptyCart, st)
  | some c =>
    if c.isEmpty then (.error .emptyCart, st)
    else if !req.shippingAddress.isComplete then (.error .invalidAddress, st)
    else
      let billing := if !req.billingAddress.isComplete
        then req.shippingAddress else req.billingAddress
      match priceCart deps.pricing deps.now
        ⟨some c, req.promotionCodes, some req.shippingMethodId,
         some ⟨req.shippingAddress.country, req.shippingAddress.state,
               req.shippingAddress.city, req.shippingAddress.postalCode⟩,
         false⟩ with
      | .error e => (.error e, st)
      | .ok none => (.error .emptyCart, st)
      | .ok (some pr) =>
        let resStep :=
          if deps.inventoryConfigured then
            reserveLoop deps (deps.idGenerator st.nextId) c.items
              { st with nextId := st.nextId + 1 }
          else (none, st)
        match resStep with
        | (some e, st1) => (.error e, st1)
        | (none, st1) =>
          let built := buildOrderItems deps pr.lineItemPrices c.items 0 st1
          let st2 := built.2
          let order : Order :=
            { id := deps.idGenerator st2.nextId
              orderNumber := deps.orderNumberGen
              userId := req.userId
              status := .pending
              items := built.1
              shippingAddress := req.shippingAddress
              billingAddress := billing
              paymentMethodId := req.paymentMethodId
              subtotal := pr.subtotal
              discountTotal := pr.discountTotal
              taxTotal := pr.taxTotal
              shippingTotal := pr.shippingTotal
              total := pr.total
              notes := req.notes }
          let st3 := { st2 with nextId := st2.nextId + 1 }
          match deps.saveOutcome order with
          | some e => (.error e, st3)
          | none =>
            processPayment deps req.paymentMethodId order
              { st3 with savedOrders := st3.savedOrders ++ [order] }

/-- A complete shipping/billing address for orchestrator runs. -/
def demoOrd : OrdAddress :=
  ⟨"Ada", "L", "1 Main St", "Springfield", "IL", "62701", "US"⟩

/-- A creation request over the one-line 10000-minor-unit cart, with no
promotion codes. -/
def reqOneItem : CreateOrderRequest :=
  ⟨some cartOneItem, "u1", demoOrd, demoOrd, "pm1", [], "std", ""⟩

/-- Orchestrator collaborators where every reservation succeeds and every
`Save` fails; no payment gateway.  Generated ids are "i", "ii", "iii", … -/
def depsSaveFail : OrchDeps :=
  { pricing := ⟨repoDemo, none, none⟩
    now := 0
    inventoryConfigured := true
    reserveOutcome := fun _ _ => none
    saveOutcome := fun _ => some (.repoFailure 1)
    paymentGateway := none
    orderNumberGen := "N-1"
    idGenerator := fun n => String.mk (List.replicate (n + 1) 'i') }

/-- A two-line cart whose second line carries SKU2. -/
def cartTwoItems : Cart :=
  ⟨[⟨"i1", "prod1", none, "SKU1", "widget", ⟨10000, "USD"⟩, 1⟩,
    ⟨"i2", "prod2", none, "SKU2", "gadget", ⟨5000, "USD"⟩, 2⟩]⟩

/-- A creation request over the two-line cart. -/
def reqTwoItems : CreateOrderRequest :=
  ⟨some cartTwoItems, "u1", demoOrd, demoOrd, "pm1", [], "std", ""⟩

/-- Collaborators where reserving SKU2 fails with `InsufficientStock`,
every other reservation succeeds, and `Save` succeeds. -/
def depsReserveFail : OrchDeps :=
  { depsSaveFail with
    reserveOutcome := fun sku _ =>
      if sku == "SKU2" then some .insufficientStock else none
    saveOutcome := fun _ => none }

/-- Claim C1 (code bug): the claim's compensation guarantee fails on the
persistence leg.  With every reservation succeeding and `Save` failing,
`CreateFromCart` returns the save error but the reservation of SKU1 is
still held afterwards — `rollbackInventory` is only invoked from the
reservation loop, and the `Save` error path returns without it, so the
spec sentence "if persistence fails after inventory was reserved, the
reservation must still be released" has no counterpart in the code.  The
inventory leg itself does conform: when reserving the second line fails,
the first line's hold is released and no order is persisted. -/
theorem create_missing_save_compensation :
    (createFromCart depsSaveFail reqOneItem ⟨[], [], 0⟩
      = (.error (.repoFailure 1), ⟨[⟨"SKU1", 1, "i"⟩], [], 3⟩)) ∧
    (createFromCart depsReserveFail reqTwoItems ⟨[], [], 0⟩
      = (.error .insufficientStock, ⟨[], [], 1⟩)) :=
  ⟨rfl, rfl⟩

lemma processPayment_gateway_error (deps : OrchDeps)
    (gw : IntentRequest → Except Err PaymentIntent) (pm : String) (o : Order)
    (st : OrchState) (hg : deps.paymentGateway = some gw)
    (he : ∀ q, ∃ e, gw q = .error e) :
    processPayment deps pm o st = (.error .paymentFailed, st) := by
  obtain ⟨e, he2⟩ := he ⟨o.total, o.total.currency, pm, o.id,
    "Order " ++ o.orderNumber⟩
  simp only [processPayment, hg]
  rw [he2]

lemma processPayment_not_succeeded (deps : OrchDeps)
    (gw : IntentRequest → Except Err PaymentIntent) (pm : String) (o : Order)
    (st : OrchState) (hg : deps.paymentGateway = some gw)
    (h2 : ∀ q, ∃ i, gw q = .ok i ∧ i.status ≠ IntentStatus.succeeded) :
    processPayment deps pm o st = (.ok o, st) := by
  obtain ⟨i, hi, hs⟩ := h2 ⟨o.total, o.total.currency, pm, o.id,
    "Order " ++ o.orderNumber⟩
  simp only [processPayment, hg]
  rw [hi]
  dsimp only
  rw [if_neg hs]

/-- `depsSaveFail` with a succeeding `Save` and the given payment
gateway. -/
def depsGw (gw : IntentRequest → Except Err PaymentIntent) : OrchDeps :=
  { depsSaveFail with
    saveOutcome := fun _ => none
    paymentGateway := some gw }

/-- The order `CreateFromCart` builds and persists for `reqOneItem` under
`depsGw` collaborators. -/
def pendingOrder1 : Order :=
  { id := "iii", orderNumber := "N-1", userId := "u1", status := .pending,
    items := [⟨"ii", "prod1", none, "SKU1", "widget", ⟨10000, "USD"⟩, 1,
      ⟨0, "USD"⟩, ⟨0, "USD"⟩, ⟨10000, "USD"⟩⟩],
    shippingAddress := demoOrd, billingAddress := demoOrd,
    paymentMethodId := "pm1",
    subtotal := ⟨10000, "USD"⟩, discountTotal := ⟨0, "USD"⟩,
    taxTotal := ⟨0, "USD"⟩, shippingTotal := ⟨0, "USD"⟩,
    total := ⟨10000, "USD"⟩, notes := "" }

/-- Claim C3 counterexample: when the configured gateway's authorization
call errors, `CreateFromCart` returns `ErrPaymentFailed` WITHOUT the
created order — `return nil, ErrPaymentFailed` — so "the created order is
returned to the caller whatever its final status" does not hold on this
path (the order does remain persisted in status pending, and the
reservation is kept). -/
theorem order_not_returned_counterexample :
    (createFromCart (depsGw (fun _ => .error (.repoFailure 7))) reqOneItem
        ⟨[], [], 0⟩).1 = .error .paymentFailed ∧
    ((createFromCart (depsGw (fun _ => .error (.repoFailure 7))) reqOneItem
        ⟨[], [], 0⟩).2).savedOrders.map Order.status = [.pending] ∧
    ((createFromCart (depsGw (fun _ => .error (.repoFailure 7))) reqOneItem
        ⟨[], [], 0⟩).2).holds = [⟨"SKU1", 1, "i"⟩] :=
  ⟨rfl, rfl, rfl⟩

/-- Claim C3 (amended): after the order is persisted, a gateway whose
authorization call errors makes `CreateFromCart` surface `PaymentFailed`
and return no order, while the persisted order remains in status pending
and the inventory hold is not released; a gateway that answers with an
intent in any non-succeeded status makes the call return the still-pending
persisted order with no error.  (The original claim's "the created order
is returned to the caller" fails on the first path — see the
counterexample.) -/
theorem payment_failure_policy
    (gw gw2 : IntentRequest → Except Err PaymentIntent)
    (hfail : ∀ q, ∃ e, gw q = .error e)
    (hflat : ∀ q, ∃ i, gw2 q = .ok i ∧ i.status ≠ IntentStatus.succeeded) :
    createFromCart (depsGw gw) reqOneItem ⟨[], [], 0⟩
      = (.error .paymentFailed, ⟨[⟨"SKU1", 1, "i"⟩], [pendingOrder1], 3⟩) ∧
    createFromCart (depsGw gw2) reqOneItem ⟨[], [], 0⟩
      = (.ok pendingOrder1, ⟨[⟨"SKU1", 1, "i"⟩], [pendingOrder1], 3⟩) := by
  constructor
  · have h1 : createFromCart (depsGw gw) reqOneItem ⟨[], [], 0⟩
        = processPayment (depsGw gw) "pm1" pendingOrder1
            ⟨[⟨"SKU1", 1, "i"⟩], [pendingOrder1], 3⟩ := rfl
    rw [h1, processPayment_gateway_error _ gw _ _ _ rfl hfail]
  · have h2 : createFromCart (depsGw gw2) reqOneItem ⟨[], [], 0⟩
        = processPayment (depsGw gw2) "pm1" pendingOrder1
            ⟨[⟨"SKU1", 1, "i"⟩], [pendingOrder1], 3⟩ := rfl
    rw [h2, processPayment_not_succeeded _ gw2 _ _ _ rfl hflat]

theorem payment_failure_policy_witness :
    createFromCart (depsGw (fun _ => .error (.repoFailure 9))) reqOneItem
        ⟨[], [], 0⟩
      = (.error .paymentFailed, ⟨[⟨"SKU1", 1, "i"⟩], [pendingOrder1], 3⟩) ∧
    createFromCart (depsGw (fun _ => .ok ⟨.failed⟩)) reqOneItem ⟨[], [], 0⟩
      = (.ok pendingOrder1, ⟨[⟨"SKU1", 1, "i"⟩], [pendingOrder1], 3⟩) :=
  payment_failure_policy (fun _ => .error (.repoFailure 9))
    (fun _ => .ok ⟨.failed⟩)
    (fun _ => ⟨.repoFailure 9, rfl⟩)
    (fun _ => ⟨⟨.failed⟩, rfl, by decide⟩)
